import Mathlib

/-!
Formal model of the VGA Nyancat simulator driver (`sim/main.cpp`): the
signal-to-framebuffer decoder `simulate_frame`, the runtime validators
(`TimingMonitor`, `SyncValidator`, `CoordinateValidator`, `ChangeTracker`)
and the dependency-free PNG encoder (`crc32`, raw scanline stream,
`save_png`).

Machine integers are modelled as `Nat`/`Int` (the counters involved are
non-negative and far from any word-size overflow over the runs considered;
the CRC is kept below `2 ^ 32` explicitly).  The framebuffer and the
per-pixel/per-tile bitmaps are modelled as total functions from indices.
The video mode is the default build configuration, VGA 640x480 @ 72Hz.
-/

namespace VgaNyancat

/-- Active horizontal resolution (pixels per line), `H_RES` in `main.cpp`. -/
abbrev H_RES : Nat := 640

/-- Active vertical resolution (lines per frame), `V_RES`. -/
abbrev V_RES : Nat := 480

/-- Horizontal front porch in clocks, `H_FP`. -/
abbrev H_FP : Nat := 24

/-- Horizontal sync pulse width in clocks, `H_SYNC`. -/
abbrev H_SYNC : Nat := 40

/-- Horizontal back porch in clocks, `H_BP`. -/
abbrev H_BP : Nat := 128

/-- Vertical front porch in lines, `V_FP`. -/
abbrev V_FP : Nat := 9

/-- Vertical sync pulse width in lines, `V_SYNC`. -/
abbrev V_SYNC : Nat := 3

/-- Vertical back porch in lines, `V_BP`. -/
abbrev V_BP : Nat := 28

/-- Horizontal blanking, `H_BLANKING = H_FP + H_SYNC + H_BP`. -/
abbrev H_BLANKING : Nat := H_FP + H_SYNC + H_BP

/-- Vertical blanking, `V_BLANKING = V_FP + V_SYNC + V_BP`. -/
abbrev V_BLANKING : Nat := V_FP + V_SYNC + V_BP

/-- Clocks per line, `H_TOTAL = H_RES + H_BLANKING` (= 832). -/
abbrev H_TOTAL : Nat := H_RES + H_BLANKING

/-- Lines per frame, `V_TOTAL = V_RES + V_BLANKING` (= 520). -/
abbrev V_TOTAL : Nat := V_RES + V_BLANKING

/-- Clocks per frame, `CLOCKS_PER_FRAME = H_TOTAL * V_TOTAL`. -/
abbrev CLOCKS_PER_FRAME : Nat := H_TOTAL * V_TOTAL

/-- One signal sample, as read from the RTL model after a rising clock
edge: the two (active-low) sync signals, the active-video flag and the
6-bit `rrggbb` color code. -/
structure Sample where
  hsync : Bool
  vsync : Bool
  activevideo : Bool
  rrggbb : Nat
deriving Repr, DecidableEq

/-- Color conversion `vga2bit_to_8bit`: a 2-bit channel value maps to
`v * 85`, giving the evenly spaced intensities 0, 85, 170, 255. -/
def vga2bit_to_8bit (v : Nat) : Nat := v * 85

/-- Pointwise update of a function used to model an in-place store into a
byte buffer or bitmap. -/
def updf {α : Type} (f : Nat → α) (i : Nat) (v : α) : Nat → α :=
  fun j => if j = i then v else f j

/-! ### The decoder `simulate_frame`

`simulate_frame` keeps `hpos`/`vpos` across calls (passed by reference),
recomputes the `row_base` pointer offset from `vpos` on entry, and keeps a
(static, hence likewise persistent) `prev_vsync` flag.  `LoopState` is the
state threaded through the per-edge loop body; `SimState` is the state
that persists between calls. -/

structure LoopState where
  hpos : Int
  vpos : Int
  row_base : Int
  prev_vsync : Bool
  fb : Nat → Nat

structure SimState where
  hpos : Int
  vpos : Int
  prev_vsync : Bool
  fb : Nat → Nat

/-- `row_base` as recomputed from `vpos`: `(vpos * H_RES) << 2` when
`vpos` is an active row, else the sentinel `-1`. -/
def row_base_of (vpos : Int) : Int :=
  if 0 ≤ vpos ∧ vpos < (V_RES : Int) then vpos * (H_RES : Int) * 4 else -1

/-- One iteration of the `simulate_frame` loop body (one clock edge):
update the static `prev_vsync`, detect frame start (both syncs low),
perform the guarded framebuffer write, then advance the position with
wraparound. -/
def edgeStep (s : LoopState) (sig : Sample) : LoopState :=
  let s := { s with prev_vsync := sig.vsync }
  let s :=
    if !sig.hsync && !sig.vsync then
      { s with hpos := -(H_BP : Int), vpos := -(V_BP : Int), row_base := -1 }
    else s
  let s :=
    if (0 : Int) ≤ s.row_base ∧ (0 : Int) ≤ s.hpos ∧ s.hpos < (H_RES : Int) then
      let idx := (s.row_base + s.hpos * 4).toNat
      let fb := updf s.fb idx (vga2bit_to_8bit (sig.rrggbb &&& 3))
      let fb := updf fb (idx + 1) (vga2bit_to_8bit ((sig.rrggbb >>> 2) &&& 3))
      let fb := updf fb (idx + 2) (vga2bit_to_8bit ((sig.rrggbb >>> 4) &&& 3))
      let fb := updf fb (idx + 3) 255
      { s with fb := fb }
    else s
  let hpos1 := s.hpos + 1
  if hpos1 ≥ (H_RES : Int) + (H_FP : Int) + (H_SYNC : Int) then
    let vpos1 := s.vpos + 1
    if vpos1 ≥ (V_RES : Int) + (V_FP : Int) + (V_SYNC : Int) then
      { s with hpos := -(H_BP : Int), vpos := -(V_BP : Int), row_base := -1 }
    else
      { s with hpos := -(H_BP : Int), vpos := vpos1, row_base := row_base_of vpos1 }
  else
    { s with hpos := hpos1 }

/-- Entry of `simulate_frame`: load the persistent state and recompute
`row_base` from the current `vpos`. -/
def initLoop (st : SimState) : LoopState :=
  { hpos := st.hpos, vpos := st.vpos, row_base := row_base_of st.vpos,
    prev_vsync := st.prev_vsync, fb := st.fb }

/-- Exit of `simulate_frame`: the state that persists to the next call. -/
def LoopState.toSim (ls : LoopState) : SimState :=
  { hpos := ls.hpos, vpos := ls.vpos, prev_vsync := ls.prev_vsync, fb := ls.fb }

/-- `simulate_frame` over a batch of clock-edge samples. -/
def simulate_frame (st : SimState) (sigs : List Sample) : SimState :=
  (sigs.foldl edgeStep (initLoop st)).toSim

/-- Repeated `simulate_frame` calls, one per batch, positions (and the
framebuffer and static `prev_vsync`) carried across calls. -/
def runBatches (st : SimState) (batches : List (List Sample)) : SimState :=
  batches.foldl simulate_frame st

/-- The position range declared by the coordinate-system comment of
`simulate_frame`: `hpos ∈ [-H_BP, H_RES + H_FP + H_SYNC)` and
`vpos ∈ [-V_BP, V_RES + V_FP + V_SYNC)`. -/
def PosOK (hpos vpos : Int) : Prop :=
  -(H_BP : Int) ≤ hpos ∧ hpos < (H_RES : Int) + (H_FP : Int) + (H_SYNC : Int) ∧
  -(V_BP : Int) ≤ vpos ∧ vpos < (V_RES : Int) + (V_FP : Int) + (V_SYNC : Int)

instance (hpos vpos : Int) : Decidable (PosOK hpos vpos) := by
  unfold PosOK; infer_instance

/-- The initial persistent state of the driver: `hpos = -H_BP`,
`vpos = -V_BP`, `prev_vsync = true`, all-zero framebuffer. -/
def initSim : SimState :=
  { hpos := -(H_BP : Int), vpos := -(V_BP : Int), prev_vsync := true, fb := fun _ => 0 }

/-! ### TimingMonitor

Edge-driven measurement of sync pulse widths, line/frame totals and
active video dimensions, with tolerance ±1.  The per-tick processing
runs, in source order: the `v_fall` block, the `v_rise` block, the
`h_fall` block, the `h_rise` block, then the per-cycle counters and the
previous-value registers; edge flags are computed up front. -/

namespace TimingMonitor

abbrev TOLERANCE : Nat := 1

/-- `TimingMonitor::within_tolerance`. -/
def within_tolerance (measured expected : Nat) : Bool :=
  decide (expected - TOLERANCE ≤ measured ∧ measured ≤ expected + TOLERANCE)

structure State where
  h_counter : Nat
  v_counter : Nat
  hsync_pulse_width : Nat
  vsync_pulse_lines : Nat
  h_active_width : Nat
  v_active_lines : Nat
  prev_hsync : Bool
  prev_vsync : Bool
  in_hsync_pulse : Bool
  in_vsync_pulse : Bool
  hsync_seen : Bool
  vsync_seen : Bool
  frame_complete : Bool
  first_sample : Bool
  hsync_errors : Nat
  vsync_errors : Nat
  h_total_errors : Nat
  v_total_errors : Nat
  h_active_errors : Nat
  v_active_errors : Nat
  silent_mode : Bool
deriving Repr, DecidableEq

/-- Constructor state of `TimingMonitor`. -/
def init : State :=
  { h_counter := 0, v_counter := 0, hsync_pulse_width := 0, vsync_pulse_lines := 0,
    h_active_width := 0, v_active_lines := 0, prev_hsync := true, prev_vsync := true,
    in_hsync_pulse := false, in_vsync_pulse := false, hsync_seen := false,
    vsync_seen := false, frame_complete := false, first_sample := true,
    hsync_errors := 0, vsync_errors := 0, h_total_errors := 0, v_total_errors := 0,
    h_active_errors := 0, v_active_errors := 0, silent_mode := false }

/-- The `v_fall` block: when a vsync falling edge was already seen,
validate the frame total and the active line count and enter silent
mode with `frame_complete`; otherwise just record the edge; then reset
the frame counters. -/
def vFallBlock (s : State) : State :=
  let s :=
    if s.vsync_seen = true then
      let s :=
        if within_tolerance s.v_counter V_TOTAL = false then
          { s with v_total_errors := s.v_total_errors + 1 }
        else s
      let s :=
        if 0 < s.v_active_lines ∧ within_tolerance s.v_active_lines V_RES = false then
          { s with v_active_errors := s.v_active_errors + 1 }
        else s
      { s with frame_complete := true, silent_mode := true }
    else { s with vsync_seen := true }
  { s with v_counter := 0, v_active_lines := 0, in_vsync_pulse := true,
           vsync_pulse_lines := 0 }

/-- The `v_rise` block: validate the vsync pulse width in lines. -/
def vRiseBlock (s : State) : State :=
  let s := { s with in_vsync_pulse := false }
  if s.vsync_seen = true ∧ within_tolerance s.vsync_pulse_lines V_SYNC = false then
    { s with vsync_errors := s.vsync_errors + 1 }
  else s

/-- First check of the `h_fall` block: validate the line total. -/
def htErr (s : State) : State :=
  if within_tolerance s.h_counter H_TOTAL = false then
    { s with h_total_errors := s.h_total_errors + 1 }
  else s

/-- Second check of the `h_fall` block: validate the active width of
the previous line (when it had active video). -/
def haErr (s : State) : State :=
  if 0 < s.h_active_width ∧ within_tolerance s.h_active_width H_RES = false then
    { s with h_active_errors := s.h_active_errors + 1 }
  else s

/-- `h_fall`: count the previous line as active when it had active
pixels. -/
def valInc (s : State) : State :=
  if 0 < s.h_active_width then
    { s with v_active_lines := s.v_active_lines + 1 }
  else s

/-- `h_fall`: count this line into the vsync pulse width while vsync is
low. -/
def vplInc (s : State) (vsync : Bool) : State :=
  if vsync = false then
    { s with vsync_pulse_lines := s.vsync_pulse_lines + 1 }
  else s

/-- The `h_fall` block: when an hsync falling edge was already seen,
validate the line total and active width, bump the line counters and
count the vsync pulse line when vsync is low; otherwise just record the
edge; then reset the line counters. -/
def hFallBlock (s : State) (vsync : Bool) : State :=
  let s :=
    if s.hsync_seen = true then
      vplInc
        (valInc { haErr (htErr s) with v_counter := (haErr (htErr s)).v_counter + 1 })
        vsync
    else { s with hsync_seen := true }
  { s with h_counter := 0, h_active_width := 0, in_hsync_pulse := true,
           hsync_pulse_width := 0 }

/-- The `h_rise` block: validate the hsync pulse width in clocks. -/
def hRiseBlock (s : State) : State :=
  let s := { s with in_hsync_pulse := false }
  if s.hsync_seen = true ∧ within_tolerance s.hsync_pulse_width H_SYNC = false then
    { s with hsync_errors := s.hsync_errors + 1 }
  else s

/-- The per-cycle counter updates at the end of `tick`. -/
def cycleBlock (s : State) (hsync vsync activevideo : Bool) : State :=
  let s := { s with h_counter := s.h_counter + 1 }
  let s :=
    if hsync = false then
      { s with hsync_pulse_width := s.hsync_pulse_width + 1 }
    else s
  let s :=
    if activevideo = true then
      { s with h_active_width := s.h_active_width + 1 }
    else s
  { s with prev_hsync := hsync, prev_vsync := vsync }

/-- `TimingMonitor::tick`. -/
def tick (s : State) (hsync vsync activevideo : Bool) : State :=
  if s.first_sample then
    { s with prev_hsync := hsync, prev_vsync := vsync, first_sample := false }
  else
    let s1 := if (!vsync && s.prev_vsync) = true then vFallBlock s else s
    let s2 := if (vsync && !s.prev_vsync) = true then vRiseBlock s1 else s1
    let s3 := if (!hsync && s.prev_hsync) = true then hFallBlock s2 vsync else s2
    let s4 := if (hsync && !s.prev_hsync) = true then hRiseBlock s3 else s3
    cycleBlock s4 hsync vsync activevideo

/-- All six error counters zero (the PASS condition of
`TimingMonitor::report`). -/
def pass (s : State) : Bool :=
  decide (s.hsync_errors = 0 ∧ s.vsync_errors = 0 ∧ s.h_total_errors = 0 ∧
    s.v_total_errors = 0 ∧ s.h_active_errors = 0 ∧ s.v_active_errors = 0)

/-- `TimingMonitor::report`: `none` models the incomplete warning,
`some true` the PASS branch, `some false` the FAIL branch. -/
def report (s : State) : Option Bool :=
  if s.frame_complete = false then none else some (pass s)

/-- One monitor step on a `Sample`. -/
def tickS (s : State) (x : Sample) : State := tick s x.hsync x.vsync x.activevideo

/-- Run the monitor over a sample stream. -/
def runTM (s : State) (l : List Sample) : State := l.foldl tickS s

/-- A synthetic VGA line of `H_TOTAL` clocks: hsync low for the first
`W` clocks (nominally `W = H_SYNC`), then high through the back porch,
the `H_RES` active clocks (active-video flag `act`), and the front
porch; vsync is `vv` throughout. -/
def lineList (W : Nat) (vv act : Bool) : List Sample :=
  List.replicate W ⟨false, vv, false, 0⟩ ++
  List.replicate (H_SYNC + H_BP - W) ⟨true, vv, false, 0⟩ ++
  List.replicate H_RES ⟨true, vv, act, 0⟩ ++
  List.replicate H_FP ⟨true, vv, false, 0⟩

/-- The tail of a synthetic frame after its first (vsync-falling) line:
`P - 1` more vsync-low lines (nominally `P = V_SYNC`), the vsync-rising
line, the remaining back-porch lines with the hsync pulse of one
blanking line (frame line 20) widened or narrowed to `W` clocks, the
`V_RES` active lines, and the front-porch lines.  Line count:
`(P-1) + 1 + (19-P) + 1 + 10 + 1 + 479 + 1 + 8 = V_TOTAL - 1` for
`1 ≤ P ≤ 19`. -/
def frameTail (W P : Nat) : List Sample :=
  (List.replicate (P - 1) (lineList H_SYNC false false)).flatten ++
  lineList H_SYNC true false ++
  (List.replicate (19 - P) (lineList H_SYNC true false)).flatten ++
  lineList W true false ++
  (List.replicate 10 (lineList H_SYNC true false)).flatten ++
  lineList H_SYNC true true ++
  (List.replicate 479 (lineList H_SYNC true true)).flatten ++
  lineList H_SYNC true false ++
  (List.replicate 8 (lineList H_SYNC true false)).flatten

/-- A full synthetic frame of `V_TOTAL` lines: vsync low during the
first `P` lines, active video on the `V_RES` lines starting at line
`V_SYNC + V_BP = 31`, one designated blanking line carrying hsync pulse
width `W`. -/
def frameList (W P : Nat) : List Sample :=
  lineList H_SYNC false false ++ frameTail W P

/-- The drift-free periodic frame with the configured timing. -/
def cleanFrame : List Sample := frameList H_SYNC V_SYNC

/-- The first sample of a frame: both syncs falling. -/
def frameStartSample : Sample := ⟨false, false, false, 0⟩

/-- `k` clean frames followed by the next frame's first edge (so the
monitor validates the last frame). -/
def signalClean (k : Nat) : List Sample :=
  (List.replicate k cleanFrame).flatten ++ [frameStartSample]

/-- Two clean frames, then a frame whose designated blanking line has
hsync pulse width `W`, then the next frame start. -/
def signalPertH (W : Nat) : List Sample :=
  cleanFrame ++ cleanFrame ++ frameList W V_SYNC ++ [frameStartSample]

/-- Two clean frames, then a frame whose vsync pulse is `P` lines wide,
then the next frame start. -/
def signalPertV (P : Nat) : List Sample :=
  cleanFrame ++ cleanFrame ++ frameList H_SYNC P ++ [frameStartSample]

/-- Fully parametric monitor state, fields in declaration order; the
state templates the proofs thread through the synthetic signal are
instances of this. -/
def tmSt (hc vc hpw vpl haw val : Nat) (ph pv ihp ivp hs vs fc fs : Bool)
    (eh ev eht evt eha eva : Nat) (sil : Bool) : State :=
  { h_counter := hc, v_counter := vc, hsync_pulse_width := hpw,
    vsync_pulse_lines := vpl, h_active_width := haw, v_active_lines := val,
    prev_hsync := ph, prev_vsync := pv, in_hsync_pulse := ihp, in_vsync_pulse := ivp,
    hsync_seen := hs, vsync_seen := vs, frame_complete := fc, first_sample := fs,
    hsync_errors := eh, vsync_errors := ev, h_total_errors := eht,
    v_total_errors := evt, h_active_errors := eha, v_active_errors := eva,
    silent_mode := sil }

end TimingMonitor

/-! ### SyncValidator

Glitch detection and pulse-width validation with an independent position
estimate.  The per-tick processing runs, in source order: the `v_fall`
block, the `v_rise` block, the `h_fall` block, the `h_rise` block, then
the per-cycle counter updates; edge flags are computed up front from the
previous signal values. -/

namespace SyncValidator

abbrev TOLERANCE : Nat := 2

structure PulseTracker where
  pulse_width : Nat
  since_last_edge : Nat
  expected_width : Nat
  error_count : Nat
  in_pulse : Bool
deriving Repr, DecidableEq

structure State where
  hsync_state : PulseTracker
  vsync_state : PulseTracker
  est_hc : Nat
  est_vc : Nat
  first_tick : Bool
  silent_mode : Bool
  prev_hsync : Bool
  prev_vsync : Bool
  hsync_seen : Bool
  vsync_seen : Bool
deriving Repr, DecidableEq

/-- Constructor state: trackers `{0, 0, expected, 0, false}`, previous
signal values `true`, nothing seen yet. -/
def init : State :=
  { hsync_state := ⟨0, 0, H_SYNC, 0, false⟩,
    vsync_state := ⟨0, 0, V_SYNC, 0, false⟩,
    est_hc := 0, est_vc := 0, first_tick := true, silent_mode := false,
    prev_hsync := true, prev_vsync := true,
    hsync_seen := false, vsync_seen := false }

/-- The `v_fall` block: enter the pulse, reset the pulse width, count a
glitch when a previous vsync falling edge was seen and
`since_last_edge < V_SYNC * H_TOTAL - TOLERANCE`, then clear
`since_last_edge` and the estimated line counter. -/
def vFallBlock (s : State) : State :=
  let vs := { s.vsync_state with in_pulse := true, pulse_width := 0 }
  let vs :=
    if s.vsync_seen = true ∧ vs.since_last_edge < V_SYNC * H_TOTAL - TOLERANCE then
      { vs with error_count := vs.error_count + 1 }
    else vs
  { s with vsync_state := { vs with since_last_edge := 0 },
           vsync_seen := true, est_vc := 0 }

/-- The `v_rise` block: leave the pulse, validate the pulse width in
lines (`pulse_width / H_TOTAL`) against `V_SYNC` with tolerance, and
switch to silent mode. -/
def vRiseBlock (s : State) : State :=
  let vs := { s.vsync_state with in_pulse := false }
  let vs :=
    if vs.pulse_width / H_TOTAL < V_SYNC - TOLERANCE ∨
       vs.pulse_width / H_TOTAL > V_SYNC + TOLERANCE then
      { vs with error_count := vs.error_count + 1 }
    else vs
  { s with vsync_state := vs, silent_mode := true }

/-- The `h_fall` block (glitch check guarded additionally by
`since_last_edge > 0`), then reset counters and bump the line count. -/
def hFallBlock (s : State) : State :=
  let hs := { s.hsync_state with in_pulse := true, pulse_width := 0 }
  let hs :=
    if s.hsync_seen = true ∧ hs.since_last_edge < H_TOTAL - TOLERANCE ∧
       hs.since_last_edge > 0 then
      { hs with error_count := hs.error_count + 1 }
    else hs
  { s with hsync_state := { hs with since_last_edge := 0 },
           hsync_seen := true, est_hc := 0, est_vc := s.est_vc + 1 }

/-- The `h_rise` block: leave the pulse and validate the pulse width in
clocks against `H_SYNC` with tolerance. -/
def hRiseBlock (s : State) : State :=
  let hs := { s.hsync_state with in_pulse := false }
  let hs :=
    if hs.pulse_width < H_SYNC - TOLERANCE ∨ hs.pulse_width > H_SYNC + TOLERANCE then
      { hs with error_count := hs.error_count + 1 }
    else hs
  { s with hsync_state := hs }

/-- The per-cycle counter updates at the end of `tick`: `est_hc++` and
`hsync_state.since_last_edge++` (note: the source increments only the
hsync tracker's `since_last_edge`, never the vsync tracker's), pulse
widths while in pulse, wraparound of the position estimate, and the
previous-value registers. -/
def countersBlock (s : State) (hsync vsync : Bool) : State :=
  let s := { s with
    est_hc := s.est_hc + 1,
    hsync_state := { s.hsync_state with
      since_last_edge := s.hsync_state.since_last_edge + 1 } }
  let s :=
    if s.hsync_state.in_pulse then
      { s with hsync_state := { s.hsync_state with
          pulse_width := s.hsync_state.pulse_width + 1 } }
    else s
  let s :=
    if s.vsync_state.in_pulse then
      { s with vsync_state := { s.vsync_state with
          pulse_width := s.vsync_state.pulse_width + 1 } }
    else s
  let s := if s.est_hc ≥ H_TOTAL then { s with est_hc := 0 } else s
  let s := if s.est_vc ≥ V_TOTAL then { s with est_vc := 0 } else s
  { s with prev_hsync := hsync, prev_vsync := vsync }

/-- `SyncValidator::tick`. -/
def tick (s : State) (hsync vsync : Bool) : State :=
  if s.first_tick then
    { s with prev_hsync := hsync, prev_vsync := vsync, first_tick := false }
  else
    let s1 := if (!vsync && s.prev_vsync) = true then vFallBlock s else s
    let s2 := if (vsync && !s.prev_vsync) = true then vRiseBlock s1 else s1
    let s3 := if (!hsync && s.prev_hsync) = true then hFallBlock s2 else s2
    let s4 := if (hsync && !s.prev_hsync) = true then hRiseBlock s3 else s3
    countersBlock s4 hsync vsync

/-- Run the validator over a stream of vsync values with hsync held
high (no hsync edges): the setting of claim C3. -/
def runVsync (l : List Bool) : State :=
  l.foldl (fun s v => tick s true v) init

/-- A vsync stream whose two falling edges are `n + 2` clocks apart: one
tick high (consumed as the first tick), a fall, a rise, `n` quiet high
ticks — the second fall is then fed to `tick` directly by the C3
theorem. -/
def svGapPrefix (n : Nat) : State :=
  runVsync ([true, false, true] ++ List.replicate n true)

/-- The facts about the validator state that hold after the first vsync
pulse and are preserved by quiet ticks: first tick consumed, previous
values high, vsync seen, and the vsync tracker exactly
`{pulse_width 1, since_last_edge 0, expected V_SYNC, error_count c,
not in pulse}` — `since_last_edge` stays 0 because the source never
increments it. -/
def SteadyVsync (c : Nat) (s : State) : Prop :=
  s.first_tick = false ∧ s.prev_hsync = true ∧ s.prev_vsync = true ∧
  s.vsync_seen = true ∧ s.vsync_state = ⟨1, 0, V_SYNC, c, false⟩

instance (c : Nat) (s : State) : Decidable (SteadyVsync c s) := by
  unfold SteadyVsync; infer_instance

end SyncValidator

/-! ### CoordinateValidator

Defense-in-depth bounds checking before each framebuffer write.  The
verdict is computed by three checks; each failing check sets it to
`false`, and increments the error counter only while reporting is active
(`!silent_mode && error_count < ERROR_THRESHOLD`, matching the guard
around the `fprintf`/`error_count++` block in the source). -/

namespace CoordinateValidator

abbrev ERROR_THRESHOLD : Nat := 10

structure State where
  error_count : Nat
  silent_mode : Bool
  frame_complete : Bool
deriving Repr, DecidableEq

def init : State := { error_count := 0, silent_mode := false, frame_complete := false }

/-- The `if (!silent_mode && error_count < ERROR_THRESHOLD) { fprintf(...);
error_count++; }` block shared by the three checks. -/
def countErr (s : State) : State :=
  if s.silent_mode = false ∧ s.error_count < ERROR_THRESHOLD then
    { s with error_count := s.error_count + 1 }
  else s

/-- First check of `validate`: horizontal bounds.  The running
`(valid, state)` pair enters, a failing check forces the verdict to
`false` and runs the reporting/counting block. -/
def boundsCheckH (hpos : Int) (p : Bool × State) : Bool × State :=
  if hpos < 0 ∨ hpos ≥ (H_RES : Int) then (false, countErr p.2) else p

/-- Second check of `validate`: vertical bounds. -/
def boundsCheckV (vpos : Int) (p : Bool × State) : Bool × State :=
  if vpos < 0 ∨ vpos ≥ (V_RES : Int) then (false, countErr p.2) else p

/-- Third check of `validate`: `row_base` consistency, only performed when
`vpos` is in valid range. -/
def rowBaseCheck (vpos row_base : Int) (p : Bool × State) : Bool × State :=
  if (0 : Int) ≤ vpos ∧ vpos < (V_RES : Int) then
    if row_base ≠ vpos * (H_RES : Int) * 4 then (false, countErr p.2) else p
  else p

/-- Final block of `validate`: once the counter has reached the
threshold, report that once and switch to silent mode. -/
def thresholdStop (p : Bool × State) : Bool × State :=
  if ERROR_THRESHOLD ≤ p.2.error_count ∧ p.2.silent_mode = false then
    (p.1, { p.2 with silent_mode := true })
  else p

/-- `CoordinateValidator::validate`: verdict together with the updated
validator state; `valid` starts `true` and the three checks run in source
order. -/
def validate (s : State) (hpos vpos row_base : Int) : Bool × State :=
  thresholdStop (rowBaseCheck vpos row_base (boundsCheckV vpos (boundsCheckH hpos (true, s))))

/-- `CoordinateValidator::mark_frame_complete`, called on frame start. -/
def mark_frame_complete (s : State) : State :=
  if s.frame_complete = false then
    { s with frame_complete := true, silent_mode := true }
  else s

/-- The pure validity predicate the verdict implements: `hpos` in
`[0, H_RES)`, `vpos` in `[0, V_RES)`, and `row_base = (vpos * H_RES) << 2`. -/
def coordOK (hpos vpos row_base : Int) : Bool :=
  decide (0 ≤ hpos ∧ hpos < (H_RES : Int)) &&
  decide (0 ≤ vpos ∧ vpos < (V_RES : Int)) &&
  decide (row_base = vpos * (H_RES : Int) * 4)

end CoordinateValidator

/-! ### ChangeTracker

Frame-to-frame difference detection over completed-frame snapshots. -/

namespace ChangeTracker

abbrev TILE_SIZE : Nat := 32
abbrev TILES_X : Nat := (H_RES + TILE_SIZE - 1) / TILE_SIZE
abbrev TILES_Y : Nat := (V_RES + TILE_SIZE - 1) / TILE_SIZE
abbrev TOTAL_TILES : Nat := TILES_X * TILES_Y

structure State where
  prev_framebuffer : Nat → Nat
  change_map : Nat → Bool
  dirty_tiles : Nat → Bool
  heat_map : Nat → Nat
  changed_pixels : Nat
  dirty_tile_count : Nat
  frames_tracked : Nat
  first_frame : Bool
  total_changed_pixels : Nat
  min_changed : Nat
  max_changed : Nat
  min_x : Int
  max_x : Int
  min_y : Int
  max_y : Int

/-- Constructed state.  The bounding-box fields carry no meaning before
the first tracked diff (they are uninitialised in the source and reset at
the start of each diff before any use); they are set to 0 here. -/
def init : State :=
  { prev_framebuffer := (fun _ => 0), change_map := fun _ => false,
    dirty_tiles := fun _ => false, heat_map := fun _ => 0,
    changed_pixels := 0, dirty_tile_count := 0, frames_tracked := 0,
    first_frame := true, total_changed_pixels := 0,
    min_changed := H_RES * V_RES, max_changed := 0,
    min_x := 0, max_x := 0, min_y := 0, max_y := 0 }

/-- The per-pixel 4-channel (BGRA) comparison of `ChangeTracker::track`. -/
def pixelChanged (st : State) (cur : Nat → Nat) (byte_idx : Nat) : Bool :=
  decide (cur byte_idx ≠ st.prev_framebuffer byte_idx ∨
    cur (byte_idx + 1) ≠ st.prev_framebuffer (byte_idx + 1) ∨
    cur (byte_idx + 2) ≠ st.prev_framebuffer (byte_idx + 2) ∨
    cur (byte_idx + 3) ≠ st.prev_framebuffer (byte_idx + 3))

/-- `changed_pixels++` of the changed branch. -/
def bumpCount (st : State) : State := { st with changed_pixels := st.changed_pixels + 1 }

/-- Saturating heat-map increment of the changed branch
(`if (heat_map[pixel_idx] < UINT32_MAX) heat_map[pixel_idx]++`). -/
def heatUpd (st : State) (pixel_idx : Nat) : State :=
  if st.heat_map pixel_idx < 4294967295 then
    { st with heat_map := updf st.heat_map pixel_idx (st.heat_map pixel_idx + 1) }
  else st

/-- Bounding-box update `if (x < min_x) min_x = x`. -/
def bbMinX (st : State) (x : Nat) : State :=
  if (x : Int) < st.min_x then { st with min_x := (x : Int) } else st

/-- Bounding-box update `if (x > max_x) max_x = x`. -/
def bbMaxX (st : State) (x : Nat) : State :=
  if (x : Int) > st.max_x then { st with max_x := (x : Int) } else st

/-- Bounding-box update `if (y < min_y) min_y = y`. -/
def bbMinY (st : State) (y : Nat) : State :=
  if (y : Int) < st.min_y then { st with min_y := (y : Int) } else st

/-- Bounding-box update `if (y > max_y) max_y = y`. -/
def bbMaxY (st : State) (y : Nat) : State :=
  if (y : Int) > st.max_y then { st with max_y := (y : Int) } else st

/-- Dirty-tile marking of the changed branch: mark tile
`(x / TILE_SIZE, y / TILE_SIZE)` and count it if it was clean. -/
def tileUpd (st : State) (y x : Nat) : State :=
  if st.dirty_tiles ((y / TILE_SIZE) * TILES_X + x / TILE_SIZE) = false then
    { st with
      dirty_tiles := updf st.dirty_tiles ((y / TILE_SIZE) * TILES_X + x / TILE_SIZE) true,
      dirty_tile_count := st.dirty_tile_count + 1 }
  else st

/-- Body of the inner loop of `ChangeTracker::track` after the per-pixel
comparison: record the comparison outcome `changed` in the change map and,
when the pixel changed, apply — in source order — the count bump, the
heat-map update, the four bounding-box updates and the dirty-tile
marking. -/
def trackPixelGo (st : State) (y x pixel_idx : Nat) (changed : Bool) : State :=
  let st1 := { st with change_map := updf st.change_map pixel_idx changed }
  if changed then
    tileUpd (bbMaxY (bbMinY (bbMaxX (bbMinX (heatUpd (bumpCount st1) pixel_idx) x) x) y) y) y x
  else st1

/-- Inner-loop body of `ChangeTracker::track` for pixel `(x, y)`:
`pixel_idx = y * H_RES + x`, `byte_idx = pixel_idx * 4`, 4-channel
comparison, then the update above. -/
def trackPixel (cur : Nat → Nat) (y : Nat) (st : State) (x : Nat) : State :=
  trackPixelGo st y x (y * H_RES + x) (pixelChanged st cur ((y * H_RES + x) * 4))

/-- One row of the per-pixel comparison loop. -/
def trackRow (cur : Nat → Nat) (st : State) (y : Nat) : State :=
  (List.range H_RES).foldl (trackPixel cur y) st

/-- `ChangeTracker::track`: on the first call only establish the baseline;
afterwards reset the per-frame data, scan all pixels, update the running
statistics and take the current frame as the new baseline. -/
def track (st : State) (cur : Nat → Nat) : State :=
  if st.first_frame then
    { st with prev_framebuffer := cur, first_frame := false }
  else
    let st := { st with min_x := (H_RES : Int), max_x := -1,
                        min_y := (V_RES : Int), max_y := -1,
                        changed_pixels := 0, dirty_tile_count := 0,
                        dirty_tiles := fun _ => false }
    let st := (List.range V_RES).foldl (trackRow cur) st
    let st := { st with total_changed_pixels := st.total_changed_pixels + st.changed_pixels }
    let st :=
      if st.changed_pixels < st.min_changed then
        { st with min_changed := st.changed_pixels }
      else st
    let st :=
      if st.changed_pixels > st.max_changed then
        { st with max_changed := st.changed_pixels }
      else st
    { st with prev_framebuffer := cur, frames_tracked := st.frames_tracked + 1 }

/-- `ChangeTracker::get_dirty_rect`: `none` models the `false` return. -/
def get_dirty_rect (st : State) : Option (Int × Int × Int × Int) :=
  if st.changed_pixels = 0 ∨ st.max_x < 0 then none
  else some (st.min_x, st.min_y, st.max_x - st.min_x + 1, st.max_y - st.min_y + 1)

/-- `ChangeTracker::is_tile_dirty`. -/
def is_tile_dirty (st : State) (tile_x tile_y : Int) : Bool :=
  if tile_x < 0 ∨ tile_x ≥ (TILES_X : Int) ∨ tile_y < 0 ∨ tile_y ≥ (TILES_Y : Int) then
    false
  else st.dirty_tiles (tile_y * (TILES_X : Int) + tile_x).toNat

end ChangeTracker

/-! ### PNG encoder: CRC-32 with the compact 16-entry nibble table -/

/-- `crc32_table` from the source: the 16-entry lookup table. -/
def crc32_table : List Nat :=
  [0x00000000, 0x1db71064, 0x3b6e20c8, 0x26d930ac, 0x76dc4190, 0x6b6b51f4,
   0x4db26158, 0x5005713c, 0xedb88320, 0xf00f9344, 0xd6d6a3e8, 0xcb61b38c,
   0x9b64c2b0, 0x86d3d2d4, 0xa00ae278, 0xbdbdf21c]

/-- One nibble step of the source `crc32`:
`crc = (crc >> 4) ^ crc32_table[crc & 0x0f]`. -/
def nibbleStep (crc : Nat) : Nat :=
  (crc >>> 4) ^^^ crc32_table.getD (crc &&& 0xf) 0

/-- Per-byte update of the source `crc32`: `crc ^= buf[i]`, then two
nibble steps. -/
def crc32_byte (crc b : Nat) : Nat := nibbleStep (nibbleStep (crc ^^^ b))

/-- `crc32` from the source: complement, per-byte nibble-table update,
complement (for a 32-bit value, `~crc` is `crc ^ 0xffffffff`). -/
def crc32 (crc : Nat) (buf : List Nat) : Nat :=
  (buf.foldl crc32_byte (crc ^^^ 0xffffffff)) ^^^ 0xffffffff

/-- Modelled from the spec: one bit step of the standard CRC-32 shift
register with reflected polynomial `0xedb88320` (shift right one bit,
xor the polynomial when the dropped bit was set). -/
def crcBitStep (x : Nat) : Nat :=
  if x.testBit 0 then (x >>> 1) ^^^ 0xedb88320 else x >>> 1

/-- Modelled from the spec: entry `n` of the standard full 256-entry
CRC-32 table is eight bit steps applied to `n`. -/
def crc32_ref_table (n : Nat) : Nat := crcBitStep^[8] n

/-- Modelled from the spec: the standard full-256-entry-table CRC-32
(polynomial `0xedb88320`, input- and output-inverted, one table lookup
per byte). -/
def crc32_ref (crc : Nat) (buf : List Nat) : Nat :=
  (buf.foldl (fun c b => (c >>> 8) ^^^ crc32_ref_table ((c ^^^ b) &&& 0xff))
    (crc ^^^ 0xffffffff)) ^^^ 0xffffffff

/-! ### PNG encoder: the raw scanline stream and the `save_png` control
flow -/

/-- The `raw_data` buffer built by `save_png` (the BGRA-to-RGBA
conversion loop with filter bytes), translated as the imperative
append-at-`raw_pos` loop: for each row `y` append the filter byte 0,
then for each pixel append the input bytes at offsets 2, 1, 0, 3. -/
def buildRaw (px : Nat → Nat) (w h : Nat) : List Nat :=
  (List.range h).foldl (fun acc y =>
    (List.range w).foldl (fun acc2 x =>
      let idx := (y * w + x) * 4
      acc2 ++ [px (idx + 2), px (idx + 1), px idx, px (idx + 3)])
      (acc ++ [0])) []

/-- The stream shape the spec describes: rows top to bottom, each one
filter-type-zero byte followed by the `w` pixels, each emitted exactly as
the four bytes ch2, ch1, ch0, ch3 of the corresponding input pixel
(RGBA from a BGRA source). -/
def scanlineSpec (px : Nat → Nat) (w h : Nat) : List Nat :=
  ((List.range h).map (fun y =>
    0 :: ((List.range w).map (fun x =>
      let idx := (y * w + x) * 4
      [px (idx + 2), px (idx + 1), px idx, px (idx + 3)])).flatten)).flatten

/-- Environment for one `save_png` call: whether `fopen` succeeds,
whether the two `malloc`s succeed, and whether the k-th `fwrite` call
succeeds.  The source never inspects any `fwrite` return value. -/
structure PngEnv where
  open_ok : Bool
  idat_malloc_ok : Bool
  raw_malloc_ok : Bool
  write_ok : Nat → Bool

/-- Control flow of `save_png`: the returned code together with the
outcomes of the `fwrite` calls actually issued, in source order (1 for
the signature, 4 for IHDR, then after the two allocations 4 for IDAT and
3 for IEND).  The write outcomes are collected but — exactly as in the
source, which discards every `fwrite` result — they never influence the
returned code. -/
def save_png (env : PngEnv) : Int × List Bool :=
  if env.open_ok = false then (-1, [])
  else
    let sigW := env.write_ok 0
    let ihdrW := [env.write_ok 1, env.write_ok 2, env.write_ok 3, env.write_ok 4]
    if env.idat_malloc_ok = false then (-1, sigW :: ihdrW)
    else if env.raw_malloc_ok = false then (-1, sigW :: ihdrW)
    else
      let idatW := [env.write_ok 5, env.write_ok 6, env.write_ok 7, env.write_ok 8]
      let iendW := [env.write_ok 9, env.write_ok 10, env.write_ok 11]
      (0, sigW :: (ihdrW ++ idatW ++ iendW))

-- ===================================================================
-- Theorems
-- ===================================================================

theorem edgeStep_row_base (s : LoopState) (sig : Sample)
    (h : s.row_base = row_base_of s.vpos) :
    (edgeStep s sig).row_base = row_base_of (edgeStep s sig).vpos := by
  unfold edgeStep
  dsimp only
  repeat' split
  all_goals simp_all [row_base_of]

theorem foldl_row_base (sigs : List Sample) (s : LoopState)
    (h : s.row_base = row_base_of s.vpos) :
    (sigs.foldl edgeStep s).row_base = row_base_of (sigs.foldl edgeStep s).vpos := by
  induction sigs generalizing s with
  | nil => exact h
  | cons x xs ih => exact ih _ (edgeStep_row_base s x h)

theorem initLoop_toSim (ls : LoopState) (h : ls.row_base = row_base_of ls.vpos) :
    initLoop ls.toSim = ls := by
  cases ls with
  | mk hpos vpos row_base prev_vsync fb =>
    simp [initLoop, LoopState.toSim]
    exact h.symm

theorem toSim_initLoop (st : SimState) : (initLoop st).toSim = st := by
  cases st; rfl

theorem simulate_frame_nil (st : SimState) : simulate_frame st [] = st := by
  simp [simulate_frame, toSim_initLoop]

theorem simulate_frame_append (st : SimState) (a b : List Sample) :
    simulate_frame st (a ++ b) = simulate_frame (simulate_frame st a) b := by
  unfold simulate_frame
  rw [List.foldl_append]
  congr 1
  rw [initLoop_toSim _ (foldl_row_base a (initLoop st) rfl)]

/-- C1.  Batch invariance of the decoder: for every persistent state and
every partition of a sample sequence into consecutive batches, running
`simulate_frame` once per batch (positions, framebuffer and the static
`prev_vsync` carried across calls) produces exactly the same final state
as one `simulate_frame` call over the concatenation of all batches —
whether or not batch boundaries align with line or frame boundaries. -/
theorem simulate_frame_batch_invariance (st : SimState) (batches : List (List Sample)) :
    runBatches st batches = simulate_frame st batches.flatten := by
  induction batches generalizing st with
  | nil => simp [runBatches, simulate_frame_nil]
  | cons b bs ih =>
    simp only [runBatches, List.foldl_cons, List.flatten_cons]
    rw [simulate_frame_append]
    exact ih (simulate_frame st b)

theorem edgeStep_posOK (s : LoopState) (sig : Sample)
    (h : PosOK s.hpos s.vpos) :
    PosOK (edgeStep s sig).hpos (edgeStep s sig).vpos := by
  obtain ⟨h1, h2, h3, h4⟩ := h
  unfold edgeStep PosOK
  dsimp only
  repeat' split
  all_goals dsimp only
  all_goals norm_num at *
  all_goals omega

theorem foldl_posOK (sigs : List Sample) (s : LoopState)
    (h : PosOK s.hpos s.vpos) :
    PosOK ((sigs.foldl edgeStep s)).hpos ((sigs.foldl edgeStep s)).vpos := by
  induction sigs generalizing s with
  | nil => exact h
  | cons x xs ih => exact ih _ (edgeStep_posOK s x h)

/-- C2.  Position range invariant: from any persistent state whose
positions lie in the declared ranges (in particular from the initial
state `hpos = -H_BP`, `vpos = -V_BP`), after processing any sequence of
clock-edge samples with `simulate_frame`, `hpos` again lies in
`[-H_BP, H_RES + H_FP + H_SYNC)` and `vpos` in
`[-V_BP, V_RES + V_FP + V_SYNC)`.  Since the sample sequence and the
starting state are universally quantified, this covers the state after
every processed edge of every batching (each prefix of a run is itself a
run), and both the frame-start reset and the wraparound advance stay in
range.  The initial state is in range: `PosOK initSim.hpos initSim.vpos`
holds by `simulate_frame_pos_range_witness`. -/
theorem simulate_frame_pos_range (st : SimState) (sigs : List Sample)
    (h : PosOK st.hpos st.vpos) :
    PosOK (simulate_frame st sigs).hpos (simulate_frame st sigs).vpos := by
  have := foldl_posOK sigs (initLoop st) h
  exact this

namespace CoordinateValidator

theorem countErr_silent (s : State) (hs : s.silent_mode = true) : countErr s = s := by
  unfold countErr
  rw [if_neg]
  rintro ⟨h1, -⟩
  rw [hs] at h1
  exact Bool.true_eq_false.mp h1

theorem countErr_ge (s : State) (hs : ERROR_THRESHOLD ≤ s.error_count) : countErr s = s := by
  unfold countErr
  rw [if_neg]
  rintro ⟨-, h2⟩
  omega

theorem countErr_silent_mode (s : State) : (countErr s).silent_mode = s.silent_mode := by
  unfold countErr; split <;> rfl

theorem countErr_mono (s : State) : s.error_count ≤ (countErr s).error_count := by
  unfold countErr; split <;> simp

theorem countErr_active (s : State) (hs : s.silent_mode = false)
    (hc : s.error_count < ERROR_THRESHOLD) :
    (countErr s).error_count = s.error_count + 1 := by
  unfold countErr
  rw [if_pos ⟨hs, hc⟩]

theorem boundsCheckH_snd (hpos : Int) (p : Bool × State) :
    (boundsCheckH hpos p).2 = p.2 ∨ (boundsCheckH hpos p).2 = countErr p.2 := by
  unfold boundsCheckH; split <;> simp

theorem boundsCheckV_snd (vpos : Int) (p : Bool × State) :
    (boundsCheckV vpos p).2 = p.2 ∨ (boundsCheckV vpos p).2 = countErr p.2 := by
  unfold boundsCheckV; split <;> simp

theorem rowBaseCheck_snd (vpos row_base : Int) (p : Bool × State) :
    (rowBaseCheck vpos row_base p).2 = p.2 ∨
    (rowBaseCheck vpos row_base p).2 = countErr p.2 := by
  unfold rowBaseCheck
  split
  · split <;> simp
  · simp

theorem validate_silent_no_count (s : State)
    (hpos vpos row_base : Int) (hs : s.silent_mode = true) :
    (validate s hpos vpos row_base).2 = s := by
  unfold validate
  have h1 : (boundsCheckH hpos (true, s)).2 = s := by
    rcases boundsCheckH_snd hpos (true, s) with h | h <;>
      simp [h, countErr_silent s hs]
  have h2 : (boundsCheckV vpos (boundsCheckH hpos (true, s))).2 = s := by
    rcases boundsCheckV_snd vpos (boundsCheckH hpos (true, s)) with h | h <;>
      rw [h, h1] <;> try rw [countErr_silent s hs]
  have h3 : (rowBaseCheck vpos row_base (boundsCheckV vpos (boundsCheckH hpos (true, s)))).2 = s := by
    rcases rowBaseCheck_snd vpos row_base (boundsCheckV vpos (boundsCheckH hpos (true, s))) with h | h <;>
      rw [h, h2] <;> try rw [countErr_silent s hs]
  unfold thresholdStop
  rw [h3]
  rw [if_neg]
  · exact h3
  · rintro ⟨-, h⟩
    rw [hs] at h
    exact Bool.true_eq_false.mp h

theorem validate_threshold_no_count (s : State)
    (hpos vpos row_base : Int) (hs : ERROR_THRESHOLD ≤ s.error_count) :
    (validate s hpos vpos row_base).2.error_count = s.error_count := by
  unfold validate
  have h1 : (boundsCheckH hpos (true, s)).2 = s := by
    rcases boundsCheckH_snd hpos (true, s) with h | h <;>
      simp [h, countErr_ge s hs]
  have h2 : (boundsCheckV vpos (boundsCheckH hpos (true, s))).2 = s := by
    rcases boundsCheckV_snd vpos (boundsCheckH hpos (true, s)) with h | h <;>
      rw [h, h1] <;> try rw [countErr_ge s hs]
  have h3 : (rowBaseCheck vpos row_base (boundsCheckV vpos (boundsCheckH hpos (true, s)))).2 = s := by
    rcases rowBaseCheck_snd vpos row_base (boundsCheckV vpos (boundsCheckH hpos (true, s))) with h | h <;>
      rw [h, h2] <;> try rw [countErr_ge s hs]
  unfold thresholdStop
  split <;> simp [h3]

theorem boundsCheckH_fst (hpos : Int) (p : Bool × State) :
    (boundsCheckH hpos p).1 = (!decide (hpos < 0 ∨ hpos ≥ (H_RES : Int)) && p.1) := by
  unfold boundsCheckH
  by_cases h : hpos < 0 ∨ hpos ≥ (H_RES : Int)
  · rw [if_pos h, decide_eq_true h]
    rfl
  · rw [if_neg h, decide_eq_false h]
    rfl

theorem boundsCheckV_fst (vpos : Int) (p : Bool × State) :
    (boundsCheckV vpos p).1 = (!decide (vpos < 0 ∨ vpos ≥ (V_RES : Int)) && p.1) := by
  unfold boundsCheckV
  by_cases h : vpos < 0 ∨ vpos ≥ (V_RES : Int)
  · rw [if_pos h, decide_eq_true h]
    rfl
  · rw [if_neg h, decide_eq_false h]
    rfl

theorem rowBaseCheck_fst (vpos row_base : Int) (p : Bool × State) :
    (rowBaseCheck vpos row_base p).1 =
      (!(decide ((0 : Int) ≤ vpos ∧ vpos < (V_RES : Int)) &&
         decide (row_base ≠ vpos * (H_RES : Int) * 4)) && p.1) := by
  unfold rowBaseCheck
  by_cases h1 : (0 : Int) ≤ vpos ∧ vpos < (V_RES : Int)
  · rw [if_pos h1, decide_eq_true h1]
    by_cases h2 : row_base ≠ vpos * (H_RES : Int) * 4
    · rw [if_pos h2, decide_eq_true h2]
      rfl
    · rw [if_neg h2, decide_eq_false h2]
      rfl
  · rw [if_neg h1, decide_eq_false h1]
    rfl

theorem thresholdStop_fst (p : Bool × State) : (thresholdStop p).1 = p.1 := by
  unfold thresholdStop; split <;> rfl

theorem thresholdStop_count (p : Bool × State) :
    (thresholdStop p).2.error_count = p.2.error_count := by
  unfold thresholdStop; split <;> rfl

theorem validate_verdict (s : State) (hpos vpos row_base : Int) :
    (validate s hpos vpos row_base).1 = coordOK hpos vpos row_base := by
  unfold validate
  rw [thresholdStop_fst, rowBaseCheck_fst, boundsCheckV_fst, boundsCheckH_fst]
  unfold coordOK
  by_cases hA : hpos < 0 ∨ hpos ≥ (H_RES : Int)
  · have cA : ¬(0 ≤ hpos ∧ hpos < (H_RES : Int)) := by omega
    rw [decide_eq_true hA, decide_eq_false cA]
    simp
  · have cA : 0 ≤ hpos ∧ hpos < (H_RES : Int) := by omega
    rw [decide_eq_false hA, decide_eq_true cA]
    by_cases hB : vpos < 0 ∨ vpos ≥ (V_RES : Int)
    · have cB : ¬(0 ≤ vpos ∧ vpos < (V_RES : Int)) := by omega
      rw [decide_eq_true hB, decide_eq_false cB]
      simp
    · have cB : 0 ≤ vpos ∧ vpos < (V_RES : Int) := by omega
      rw [decide_eq_false hB, decide_eq_true cB]
      by_cases hC : row_base ≠ vpos * (H_RES : Int) * 4
      · rw [decide_eq_true hC, decide_eq_false hC]
        simp
      · have cC : row_base = vpos * (H_RES : Int) * 4 := not_not.mp hC
        rw [decide_eq_false hC, decide_eq_true cC]
        simp

theorem boundsCheckH_mono (hpos : Int) (p : Bool × State) :
    p.2.error_count ≤ (boundsCheckH hpos p).2.error_count := by
  rcases boundsCheckH_snd hpos p with h | h <;> rw [h]
  exact countErr_mono p.2

theorem boundsCheckV_mono (vpos : Int) (p : Bool × State) :
    p.2.error_count ≤ (boundsCheckV vpos p).2.error_count := by
  rcases boundsCheckV_snd vpos p with h | h <;> rw [h]
  exact countErr_mono p.2

theorem rowBaseCheck_mono (vpos row_base : Int) (p : Bool × State) :
    p.2.error_count ≤ (rowBaseCheck vpos row_base p).2.error_count := by
  rcases rowBaseCheck_snd vpos row_base p with h | h <;> rw [h]
  exact countErr_mono p.2

theorem validate_active_counts (s : State)
    (hpos vpos row_base : Int) (hs : s.silent_mode = false)
    (hc : s.error_count < ERROR_THRESHOLD)
    (hbad : coordOK hpos vpos row_base = false) :
    s.error_count < (validate s hpos vpos row_base).2.error_count := by
  unfold validate
  rw [thresholdStop_count]
  by_cases hA : hpos < 0 ∨ hpos ≥ (H_RES : Int)
  · have h1 : (boundsCheckH hpos (true, s)).2.error_count = s.error_count + 1 := by
      unfold boundsCheckH
      rw [if_pos hA]
      exact countErr_active s hs hc
    have h2 := boundsCheckV_mono vpos (boundsCheckH hpos (true, s))
    have h3 := rowBaseCheck_mono vpos row_base (boundsCheckV vpos (boundsCheckH hpos (true, s)))
    omega
  · have e1 : boundsCheckH hpos (true, s) = (true, s) := by
      unfold boundsCheckH; rw [if_neg hA]
    rw [e1]
    by_cases hB : vpos < 0 ∨ vpos ≥ (V_RES : Int)
    · have h1 : (boundsCheckV vpos (true, s)).2.error_count = s.error_count + 1 := by
        unfold boundsCheckV
        rw [if_pos hB]
        exact countErr_active s hs hc
      have h3 := rowBaseCheck_mono vpos row_base (boundsCheckV vpos (true, s))
      omega
    · have e2 : boundsCheckV vpos (true, s) = (true, s) := by
        unfold boundsCheckV; rw [if_neg hB]
      rw [e2]
      have hxr : 0 ≤ hpos ∧ hpos < 640 := by
        have e : ((H_RES : Nat) : Int) = 640 := by norm_num
        rw [e] at hA
        omega
      have hvr : 0 ≤ vpos ∧ vpos < 480 := by
        have e : ((V_RES : Nat) : Int) = 480 := by norm_num
        rw [e] at hB
        omega
      have hC : row_base ≠ vpos * (H_RES : Int) * 4 := by
        unfold coordOK at hbad
        simp at hbad
        have h0 := hbad hxr.1 hxr.2 hvr.1 hvr.2
        intro hEq
        apply h0
        rw [hEq]
        norm_num
      have hVin : (0 : Int) ≤ vpos ∧ vpos < (V_RES : Int) := by omega
      unfold rowBaseCheck
      rw [if_pos hVin, if_pos hC]
      rw [countErr_active s hs hc]
      omega

end CoordinateValidator

/-- C4 counterexample: errors are NOT always counted.  After the first
frame completes (`mark_frame_complete` sets `silent_mode`), a `validate`
call with the out-of-bounds coordinate `hpos = -1` still returns `false`
but leaves `error_count` at 0 instead of incrementing it, because the
`error_count++` of the source sits inside the
`!silent_mode && error_count < ERROR_THRESHOLD` reporting guard. -/
theorem validate_counterexample :
    (CoordinateValidator.validate
        (CoordinateValidator.mark_frame_complete CoordinateValidator.init) (-1) 0 0).1
      = false ∧
    (CoordinateValidator.validate
        (CoordinateValidator.mark_frame_complete CoordinateValidator.init) (-1) 0 0).2.error_count
      = 0 := by
  decide

/-- C4 (amended).  For every validator state and coordinates: the verdict
always equals the pure validity predicate (checks always execute and
detection never stops, also after the threshold is reached or the first
frame completes); while reporting is suppressed (`silent_mode`) the state
— in particular the error counter — is left unchanged; once the counter
has reached the threshold (10) it never changes again; and while
reporting is active (not silent, counter below threshold) every invalid
call strictly increases the counter. -/
theorem validate_detection_never_stops (s : CoordinateValidator.State)
    (hpos vpos row_base : Int) :
    (CoordinateValidator.validate s hpos vpos row_base).1 =
      CoordinateValidator.coordOK hpos vpos row_base ∧
    (s.silent_mode = true → (CoordinateValidator.validate s hpos vpos row_base).2 = s) ∧
    (CoordinateValidator.ERROR_THRESHOLD ≤ s.error_count →
      (CoordinateValidator.validate s hpos vpos row_base).2.error_count = s.error_count) ∧
    (s.silent_mode = false → s.error_count < CoordinateValidator.ERROR_THRESHOLD →
      CoordinateValidator.coordOK hpos vpos row_base = false →
      s.error_count < (CoordinateValidator.validate s hpos vpos row_base).2.error_count) := by
  refine ⟨CoordinateValidator.validate_verdict s hpos vpos row_base, ?_, ?_, ?_⟩
  · intro hs; exact CoordinateValidator.validate_silent_no_count s hpos vpos row_base hs
  · intro hs; exact CoordinateValidator.validate_threshold_no_count s hpos vpos row_base hs
  · intro hs hc hbad
    exact CoordinateValidator.validate_active_counts s hpos vpos row_base hs hc hbad

theorem validate_detection_never_stops_witness :
    (CoordinateValidator.validate ⟨3, true, true⟩ (-5) 12 0).1 =
      CoordinateValidator.coordOK (-5) 12 0 ∧
    (CoordinateValidator.validate ⟨3, true, true⟩ (-5) 12 0).2 =
      (⟨3, true, true⟩ : CoordinateValidator.State) :=
  ⟨(validate_detection_never_stops ⟨3, true, true⟩ (-5) 12 0).1,
   (validate_detection_never_stops ⟨3, true, true⟩ (-5) 12 0).2.1 rfl⟩

/-- C10.  Tile query totality: for all integer tile coordinates,
`is_tile_dirty` returns `false` whenever `tile_x` is outside
`[0, TILES_X)` or `tile_y` is outside `[0, TILES_Y)`; for in-range
coordinates the consulted bitmap index `tile_y * TILES_X + tile_x` is
below `TOTAL_TILES` (so the source's vector access is in bounds) and the
returned value is the stored dirty flag of that tile. -/
theorem is_tile_dirty_total (st : ChangeTracker.State) (tile_x tile_y : Int) :
    ((tile_x < 0 ∨ (ChangeTracker.TILES_X : Int) ≤ tile_x ∨
      tile_y < 0 ∨ (ChangeTracker.TILES_Y : Int) ≤ tile_y) →
      ChangeTracker.is_tile_dirty st tile_x tile_y = false) ∧
    (0 ≤ tile_x → tile_x < (ChangeTracker.TILES_X : Int) →
     0 ≤ tile_y → tile_y < (ChangeTracker.TILES_Y : Int) →
      (tile_y * (ChangeTracker.TILES_X : Int) + tile_x).toNat < ChangeTracker.TOTAL_TILES ∧
      ChangeTracker.is_tile_dirty st tile_x tile_y =
        st.dirty_tiles (tile_y * (ChangeTracker.TILES_X : Int) + tile_x).toNat) := by
  have eX : (ChangeTracker.TILES_X : Int) = 20 := by decide
  have eY : (ChangeTracker.TILES_Y : Int) = 15 := by decide
  have eT : ChangeTracker.TOTAL_TILES = 300 := by decide
  constructor
  · intro hout
    unfold ChangeTracker.is_tile_dirty
    rcases hout with h | h | h | h
    · exact if_pos (Or.inl h)
    · exact if_pos (Or.inr (Or.inl h))
    · exact if_pos (Or.inr (Or.inr (Or.inl h)))
    · exact if_pos (Or.inr (Or.inr (Or.inr h)))
  · intro h1 h2 h3 h4
    rw [eX] at h2
    rw [eY] at h4
    have hcond : ¬(tile_x < 0 ∨ tile_x ≥ (ChangeTracker.TILES_X : Int) ∨
        tile_y < 0 ∨ tile_y ≥ (ChangeTracker.TILES_Y : Int)) := by
      rw [eX, eY]
      omega
    constructor
    · rw [eX, eT]
      omega
    · unfold ChangeTracker.is_tile_dirty
      rw [if_neg hcond]

theorem is_tile_dirty_total_witness :
    ChangeTracker.is_tile_dirty ChangeTracker.init 20 3 = false ∧
    ((2 : Int) * (ChangeTracker.TILES_X : Int) + 5).toNat < ChangeTracker.TOTAL_TILES ∧
    ChangeTracker.is_tile_dirty ChangeTracker.init 5 2 =
      ChangeTracker.init.dirty_tiles ((2 : Int) * (ChangeTracker.TILES_X : Int) + 5).toNat :=
  ⟨(is_tile_dirty_total ChangeTracker.init 20 3).1 (by right; left; decide),
   (is_tile_dirty_total ChangeTracker.init 5 2).2 (by decide) (by decide) (by decide) (by decide)⟩

theorem simulate_frame_pos_range_witness :
    PosOK initSim.hpos initSim.vpos ∧
    PosOK (simulate_frame initSim [⟨true, true, false, 0⟩, ⟨false, false, false, 21⟩]).hpos
      (simulate_frame initSim [⟨true, true, false, 0⟩, ⟨false, false, false, 21⟩]).vpos := by
  constructor
  · decide
  · exact simulate_frame_pos_range initSim _ (by decide)

theorem xor_shiftRight (a b n : Nat) : (a ^^^ b) >>> n = (a >>> n) ^^^ (b >>> n) := by
  apply Nat.eq_of_testBit_eq
  intro i
  simp [Nat.testBit_shiftRight, Nat.testBit_xor]

theorem xor_decomp (x k : Nat) : x = ((x >>> k) <<< k) ^^^ (x % 2 ^ k) := by
  apply Nat.eq_of_testBit_eq
  intro i
  simp only [Nat.testBit_xor, Nat.testBit_shiftLeft, Nat.testBit_shiftRight,
    Nat.testBit_mod_two_pow]
  by_cases hk : k ≤ i
  · rw [Nat.add_sub_cancel' hk]
    simp [hk, Nat.not_lt.mpr hk]
  · simp [hk, Nat.lt_of_not_le hk]

theorem xor_cancel_right (x y p : Nat) : (x ^^^ p) ^^^ (y ^^^ p) = x ^^^ y := by
  apply Nat.eq_of_testBit_eq
  intro i
  simp only [Nat.testBit_xor]
  cases x.testBit i <;> cases y.testBit i <;> cases p.testBit i <;> rfl

theorem xor_right_comm3 (x y p : Nat) : (x ^^^ y) ^^^ p = (x ^^^ p) ^^^ y := by
  apply Nat.eq_of_testBit_eq
  intro i
  simp only [Nat.testBit_xor]
  cases x.testBit i <;> cases y.testBit i <;> cases p.testBit i <;> rfl

theorem crcBitStep_xor (a b : Nat) : crcBitStep (a ^^^ b) = crcBitStep a ^^^ crcBitStep b := by
  unfold crcBitStep
  have hab : (a ^^^ b).testBit 0 = (a.testBit 0 ^^ b.testBit 0) := Nat.testBit_xor a b 0
  by_cases ta : a.testBit 0 <;> by_cases tb : b.testBit 0
  · rw [if_pos ta, if_pos tb, if_neg (by simp [hab, ta, tb])]
    rw [xor_shiftRight]
    exact (xor_cancel_right _ _ _).symm
  · rw [if_pos ta, if_neg tb, if_pos (by simp [hab, ta, tb])]
    rw [xor_shiftRight]
    exact xor_right_comm3 _ _ _
  · rw [if_neg ta, if_pos tb, if_pos (by simp [hab, ta, tb])]
    rw [xor_shiftRight]
    exact Nat.xor_assoc _ _ _
  · rw [if_neg ta, if_neg tb, if_neg (by simp [hab, ta, tb])]
    exact xor_shiftRight a b 1

theorem crcBitStep_iterate_xor (k a b : Nat) :
    crcBitStep^[k] (a ^^^ b) = crcBitStep^[k] a ^^^ crcBitStep^[k] b := by
  induction k generalizing a b with
  | zero => rfl
  | succ n ih =>
    rw [Function.iterate_succ_apply, Function.iterate_succ_apply,
      Function.iterate_succ_apply, crcBitStep_xor]
    exact ih _ _

theorem crcBitStep_iterate_shiftLeft (k y : Nat) : crcBitStep^[k] (y <<< k) = y := by
  induction k generalizing y with
  | zero => simp
  | succ n ih =>
    rw [Function.iterate_succ_apply]
    have h0 : (y <<< (n + 1)).testBit 0 = false := by
      simp [Nat.testBit_shiftLeft]
    have hsh : (y <<< (n + 1)) >>> 1 = y <<< n := by
      apply Nat.eq_of_testBit_eq
      intro i
      simp only [Nat.testBit_shiftRight, Nat.testBit_shiftLeft]
      by_cases hn : n ≤ i
      · rw [decide_eq_true (show 1 + i ≥ n + 1 by omega),
          decide_eq_true (show i ≥ n from hn)]
        simp only [Bool.true_and]
        congr 1
        omega
      · rw [decide_eq_false (show ¬(1 + i ≥ n + 1) by omega),
          decide_eq_false (show ¬(i ≥ n) from hn)]
        simp
    rw [show crcBitStep (y <<< (n + 1)) = (y <<< (n + 1)) >>> 1 by
      unfold crcBitStep; rw [h0]; simp]
    rw [hsh]
    exact ih y

theorem crcBitStep_iterate_decomp (k x : Nat) :
    crcBitStep^[k] x = (x >>> k) ^^^ crcBitStep^[k] (x % 2 ^ k) := by
  conv_lhs => rw [xor_decomp x k]
  rw [crcBitStep_iterate_xor, crcBitStep_iterate_shiftLeft]

theorem nibbleStep_eq_bitSteps (x : Nat) : nibbleStep x = crcBitStep^[4] x := by
  rw [crcBitStep_iterate_decomp 4 x]
  unfold nibbleStep
  have e15 : x &&& 0xf = x % 2 ^ 4 := by
    have : (0xf : Nat) = 2 ^ 4 - 1 := by norm_num
    rw [this, Nat.and_pow_two_sub_one_eq_mod]
  rw [e15]
  congr 1
  have hlt : x % 2 ^ 4 < 16 := by
    have := Nat.mod_lt x (y := 2 ^ 4) (by norm_num)
    omega
  have htab : ∀ n, n < 16 → crc32_table.getD n 0 = crcBitStep^[4] n := by decide
  exact htab _ hlt

theorem crc32_byte_eq_ref (c b : Nat) (hb : b < 256) :
    crc32_byte c b = (c >>> 8) ^^^ crc32_ref_table ((c ^^^ b) &&& 0xff) := by
  unfold crc32_byte
  rw [nibbleStep_eq_bitSteps, nibbleStep_eq_bitSteps,
    ← Function.iterate_add_apply]
  show crcBitStep^[8] (c ^^^ b) = _
  rw [crcBitStep_iterate_decomp 8 (c ^^^ b)]
  have e255 : (c ^^^ b) &&& 0xff = (c ^^^ b) % 2 ^ 8 := by
    have : (0xff : Nat) = 2 ^ 8 - 1 := by norm_num
    rw [this, Nat.and_pow_two_sub_one_eq_mod]
  rw [e255]
  have hc8 : (c ^^^ b) >>> 8 = c >>> 8 := by
    rw [xor_shiftRight]
    have : b >>> 8 = 0 := by
      rw [Nat.shiftRight_eq_div_pow]
      omega
    rw [this, Nat.xor_zero]
  rw [hc8]
  rfl

theorem crc32_fold_eq_ref (buf : List Nat) (c : Nat) (hbuf : ∀ b ∈ buf, b < 256) :
    buf.foldl crc32_byte c =
      buf.foldl (fun c b => (c >>> 8) ^^^ crc32_ref_table ((c ^^^ b) &&& 0xff)) c := by
  induction buf generalizing c with
  | nil => rfl
  | cons x xs ih =>
    simp only [List.foldl_cons]
    rw [crc32_byte_eq_ref c x (hbuf x (List.mem_cons_self x xs))]
    exact ih _ (fun b hb => hbuf b (List.mem_cons_of_mem x hb))

/-- C9.  CRC nibble-table equivalence: for every initial value and every
byte sequence, the source `crc32` computed with the compact 16-entry
lookup table (two 4-bit steps per byte) returns exactly the value of the
standard full-256-entry-table CRC-32 with reflected polynomial
`0xedb88320`, input- and output-inverted; and it matches the reference
vectors: the empty input gives back the initial value 0, and the single
byte `0x61` gives the known CRC-32 value `0xe8b7be43`. -/
theorem crc32_nibble_table_equiv (crc : Nat) (buf : List Nat)
    (hbuf : ∀ b ∈ buf, b < 256) :
    crc32 crc buf = crc32_ref crc buf ∧
    crc32 0 [] = 0 ∧
    crc32 0 [0x61] = 0xe8b7be43 := by
  refine ⟨?_, by decide, by decide⟩
  unfold crc32 crc32_ref
  rw [crc32_fold_eq_ref buf _ hbuf]

theorem crc32_nibble_table_equiv_witness :
    crc32 0xdeadbeef [0, 97, 255] = crc32_ref 0xdeadbeef [0, 97, 255] ∧ crc32 0 [] = 0 :=
  ⟨(crc32_nibble_table_equiv 0xdeadbeef [0, 97, 255] (by decide)).1,
   (crc32_nibble_table_equiv 0xdeadbeef [0, 97, 255] (by decide)).2.1⟩

theorem foldl_append_eq {α : Type} (g : α → List Nat) (l : List α) (init : List Nat) :
    l.foldl (fun acc a => acc ++ g a) init = init ++ (l.map g).flatten := by
  induction l generalizing init with
  | nil => simp
  | cons a as ih =>
    simp only [List.foldl_cons, List.map_cons, List.flatten_cons]
    rw [ih, List.append_assoc]

/-- C8.  PNG scanline serialization: for every `w`-by-`h` input buffer in
BGRA byte order, the raw stream the encoder builds (and feeds to the
stored-block writer and the ADLER32 checksum) consists, per row, of one
filter-type-zero byte followed by `w` pixels each emitted exactly as the
four bytes ch2, ch1, ch0, ch3 (RGBA) of the corresponding input pixel,
rows in top-to-bottom order. -/
theorem buildRaw_eq_scanlineSpec (px : Nat → Nat) (w h : Nat) :
    buildRaw px w h = scanlineSpec px w h := by
  unfold buildRaw scanlineSpec
  induction h with
  | zero => rfl
  | succ n ih =>
    rw [List.range_succ, List.foldl_append, List.map_append, List.flatten_append, ← ih]
    simp only [List.foldl_cons, List.foldl_nil, List.map_cons, List.map_nil,
      List.flatten_cons, List.flatten_nil, List.append_nil]
    rw [foldl_append_eq]
    simp

theorem save_png_counterexample_aux (env : PngEnv) :
    (save_png env).1 =
      (if env.open_ok = true ∧ env.idat_malloc_ok = true ∧ env.raw_malloc_ok = true
       then 0 else -1) := by
  rcases env with ⟨o, m1, m2, wr⟩
  cases o <;> cases m1 <;> cases m2 <;> simp [save_png]

/-- C5 counterexample: with a destination that can be opened but where
every single write fails (all twelve `fwrite` outcomes `false`, a file
that cannot be written), `save_png` still returns 0 (success) — because
the source discards every `fwrite` result — contradicting the claim that
a non-zero failure is returned whenever the file cannot be written, and
leaving a partially/incorrectly written file while reporting success. -/
theorem save_png_ignores_write_failures :
    (save_png ⟨true, true, true, fun _ => false⟩).1 = 0 ∧
    (save_png ⟨true, true, true, fun _ => false⟩).2 = List.replicate 12 false := by
  constructor <;> rfl

/-- C5 (amended).  `save_png` returns an explicit failure (-1) when the
destination cannot be opened, and also when either internal allocation
fails; in every other case it returns 0, regardless of whether any of
the issued writes succeeded — write errors are not detected, so a
partially written file can coexist with a success return.  The returned
code is a function of the open/alloc outcomes only. -/
theorem save_png_failure_signalling (env : PngEnv) :
    ((save_png env).1 =
      (if env.open_ok = true ∧ env.idat_malloc_ok = true ∧ env.raw_malloc_ok = true
       then 0 else -1)) ∧
    (env.open_ok = false → (save_png env).1 = -1) ∧
    (∀ wr : Nat → Bool,
      (save_png { env with write_ok := wr }).1 = (save_png env).1) := by
  refine ⟨save_png_counterexample_aux env, ?_, ?_⟩
  · intro ho
    rw [save_png_counterexample_aux env, if_neg]
    rintro ⟨h, -⟩
    rw [ho] at h
    exact Bool.false_ne_true h
  · intro wr
    rw [save_png_counterexample_aux env,
      save_png_counterexample_aux { env with write_ok := wr }]

theorem save_png_failure_signalling_witness :
    (save_png ⟨false, true, true, fun _ => true⟩).1 =
      (if (false : Bool) = true ∧ (true : Bool) = true ∧ (true : Bool) = true
       then 0 else -1) ∧
    (save_png ⟨false, true, true, fun _ => true⟩).1 = -1 :=
  ⟨(save_png_failure_signalling ⟨false, true, true, fun _ => true⟩).1,
   (save_png_failure_signalling ⟨false, true, true, fun _ => true⟩).2.1 rfl⟩

namespace ChangeTracker

theorem pixelChanged_of_ne (st : State) (cur : Nat → Nat) (b : Nat)
    (h : cur b ≠ st.prev_framebuffer b) : pixelChanged st cur b = true :=
  decide_eq_true (Or.inl h)

theorem pixelChanged_of_eq (st : State) (cur : Nat → Nat) (b : Nat)
    (h0 : cur b = st.prev_framebuffer b)
    (h1 : cur (b + 1) = st.prev_framebuffer (b + 1))
    (h2 : cur (b + 2) = st.prev_framebuffer (b + 2))
    (h3 : cur (b + 3) = st.prev_framebuffer (b + 3)) :
    pixelChanged st cur b = false := by
  apply decide_eq_false
  rintro (h | h | h | h) <;> [exact h h0; exact h h1; exact h h2; exact h h3]

theorem heatUpd_projs (st : State) (p : Nat) :
    (heatUpd st p).changed_pixels = st.changed_pixels ∧
    (heatUpd st p).min_x = st.min_x ∧ (heatUpd st p).max_x = st.max_x ∧
    (heatUpd st p).min_y = st.min_y ∧ (heatUpd st p).max_y = st.max_y ∧
    (heatUpd st p).prev_framebuffer = st.prev_framebuffer := by
  unfold heatUpd
  split <;> exact ⟨rfl, rfl, rfl, rfl, rfl, rfl⟩

theorem tileUpd_projs (st : State) (y x : Nat) :
    (tileUpd st y x).changed_pixels = st.changed_pixels ∧
    (tileUpd st y x).min_x = st.min_x ∧ (tileUpd st y x).max_x = st.max_x ∧
    (tileUpd st y x).min_y = st.min_y ∧ (tileUpd st y x).max_y = st.max_y ∧
    (tileUpd st y x).prev_framebuffer = st.prev_framebuffer := by
  unfold tileUpd
  split <;> exact ⟨rfl, rfl, rfl, rfl, rfl, rfl⟩

theorem bbMinX_projs (st : State) (x : Nat) :
    (bbMinX st x).changed_pixels = st.changed_pixels ∧
    (bbMinX st x).min_x = min st.min_x (x : Int) ∧ (bbMinX st x).max_x = st.max_x ∧
    (bbMinX st x).min_y = st.min_y ∧ (bbMinX st x).max_y = st.max_y ∧
    (bbMinX st x).prev_framebuffer = st.prev_framebuffer := by
  unfold bbMinX
  split <;> refine ⟨rfl, ?_, rfl, rfl, rfl, rfl⟩ <;> (dsimp only; omega)

theorem bbMaxX_projs (st : State) (x : Nat) :
    (bbMaxX st x).changed_pixels = st.changed_pixels ∧
    (bbMaxX st x).min_x = st.min_x ∧ (bbMaxX st x).max_x = max st.max_x (x : Int) ∧
    (bbMaxX st x).min_y = st.min_y ∧ (bbMaxX st x).max_y = st.max_y ∧
    (bbMaxX st x).prev_framebuffer = st.prev_framebuffer := by
  unfold bbMaxX
  split <;> refine ⟨rfl, rfl, ?_, rfl, rfl, rfl⟩ <;> (dsimp only; omega)

theorem bbMinY_projs (st : State) (y : Nat) :
    (bbMinY st y).changed_pixels = st.changed_pixels ∧
    (bbMinY st y).min_x = st.min_x ∧ (bbMinY st y).max_x = st.max_x ∧
    (bbMinY st y).min_y = min st.min_y (y : Int) ∧ (bbMinY st y).max_y = st.max_y ∧
    (bbMinY st y).prev_framebuffer = st.prev_framebuffer := by
  unfold bbMinY
  split <;> refine ⟨rfl, rfl, rfl, ?_, rfl, rfl⟩ <;> (dsimp only; omega)

theorem bbMaxY_projs (st : State) (y : Nat) :
    (bbMaxY st y).changed_pixels = st.changed_pixels ∧
    (bbMaxY st y).min_x = st.min_x ∧ (bbMaxY st y).max_x = st.max_x ∧
    (bbMaxY st y).min_y = st.min_y ∧ (bbMaxY st y).max_y = max st.max_y (y : Int) ∧
    (bbMaxY st y).prev_framebuffer = st.prev_framebuffer := by
  unfold bbMaxY
  split <;> refine ⟨rfl, rfl, rfl, rfl, ?_, rfl⟩ <;> (dsimp only; omega)

theorem trackPixelGo_false (st : State) (y x p : Nat) :
    trackPixelGo st y x p false = { st with change_map := updf st.change_map p false } := by
  unfold trackPixelGo
  rw [if_neg Bool.false_ne_true]

theorem trackPixelGo_true_projs (st : State) (y x p : Nat) :
    (trackPixelGo st y x p true).changed_pixels = st.changed_pixels + 1 ∧
    (trackPixelGo st y x p true).min_x = min st.min_x (x : Int) ∧
    (trackPixelGo st y x p true).max_x = max st.max_x (x : Int) ∧
    (trackPixelGo st y x p true).min_y = min st.min_y (y : Int) ∧
    (trackPixelGo st y x p true).max_y = max st.max_y (y : Int) ∧
    (trackPixelGo st y x p true).prev_framebuffer = st.prev_framebuffer := by
  unfold trackPixelGo
  rw [if_pos rfl]
  refine ⟨?_, ?_, ?_, ?_, ?_, ?_⟩
  · rw [(tileUpd_projs _ _ _).1, (bbMaxY_projs _ _).1, (bbMinY_projs _ _).1,
      (bbMaxX_projs _ _).1, (bbMinX_projs _ _).1, (heatUpd_projs _ _).1]
    rfl
  · rw [(tileUpd_projs _ _ _).2.1, (bbMaxY_projs _ _).2.1, (bbMinY_projs _ _).2.1,
      (bbMaxX_projs _ _).2.1, (bbMinX_projs _ _).2.1, (heatUpd_projs _ _).2.1]
    rfl
  · rw [(tileUpd_projs _ _ _).2.2.1, (bbMaxY_projs _ _).2.2.1, (bbMinY_projs _ _).2.2.1,
      (bbMaxX_projs _ _).2.2.1]
    rw [(bbMinX_projs _ _).2.2.1, (heatUpd_projs _ _).2.2.1]
    rfl
  · rw [(tileUpd_projs _ _ _).2.2.2.1, (bbMaxY_projs _ _).2.2.2.1, (bbMinY_projs _ _).2.2.2.1]
    rw [(bbMaxX_projs _ _).2.2.2.1, (bbMinX_projs _ _).2.2.2.1, (heatUpd_projs _ _).2.2.2.1]
    rfl
  · rw [(tileUpd_projs _ _ _).2.2.2.2.1, (bbMaxY_projs _ _).2.2.2.2.1]
    rw [(bbMinY_projs _ _).2.2.2.2.1, (bbMaxX_projs _ _).2.2.2.2.1,
      (bbMinX_projs _ _).2.2.2.2.1, (heatUpd_projs _ _).2.2.2.2.1]
    rfl
  · rw [(tileUpd_projs _ _ _).2.2.2.2.2, (bbMaxY_projs _ _).2.2.2.2.2]
    rw [(bbMinY_projs _ _).2.2.2.2.2, (bbMaxX_projs _ _).2.2.2.2.2,
      (bbMinX_projs _ _).2.2.2.2.2, (heatUpd_projs _ _).2.2.2.2.2]
    rfl

theorem trackPixel_nochange (cur : Nat → Nat) (y st x)
    (h : pixelChanged st cur ((y * H_RES + x) * 4) = false) :
    trackPixel cur y st x =
      { st with change_map := updf st.change_map (y * H_RES + x) false } := by
  unfold trackPixel
  rw [h, trackPixelGo_false]

theorem trackPixel_changed_projs (cur : Nat → Nat) (y st x)
    (h : pixelChanged st cur ((y * H_RES + x) * 4) = true) :
    (trackPixel cur y st x).changed_pixels = st.changed_pixels + 1 ∧
    (trackPixel cur y st x).min_x = min st.min_x (x : Int) ∧
    (trackPixel cur y st x).max_x = max st.max_x (x : Int) ∧
    (trackPixel cur y st x).min_y = min st.min_y (y : Int) ∧
    (trackPixel cur y st x).max_y = max st.max_y (y : Int) ∧
    (trackPixel cur y st x).prev_framebuffer = st.prev_framebuffer := by
  unfold trackPixel
  rw [h]
  exact trackPixelGo_true_projs st y x (y * H_RES + x)

theorem foldB_pixels (cur : Nat → Nat) (y : Nat) :
    ∀ (xs : List Nat) (st : State), (∀ x ∈ xs, x < H_RES) → y < V_RES →
    (∀ i, i < H_RES * V_RES * 4 → cur i = st.prev_framebuffer i) →
    ∃ cm, xs.foldl (trackPixel cur y) st = { st with change_map := cm } := by
  intro xs
  induction xs with
  | nil => intro st _ _ _; exact ⟨st.change_map, rfl⟩
  | cons x xs ih =>
    intro st hxs hy hcur
    have hx : x < H_RES := hxs x (List.mem_cons_self x xs)
    have hb : (y * H_RES + x) * 4 + 3 < H_RES * V_RES * 4 := by
      have : y * H_RES + x < H_RES * V_RES := by
        have h1 : y * H_RES ≤ (V_RES - 1) * H_RES := by
          apply Nat.mul_le_mul_right
          omega
        simp only [H_RES, V_RES] at *
        omega
      omega
    have hpc : pixelChanged st cur ((y * H_RES + x) * 4) = false := by
      apply pixelChanged_of_eq <;> apply hcur <;> omega
    rw [List.foldl_cons, trackPixel_nochange cur y st x hpc]
    obtain ⟨cm, hcm⟩ := ih { st with change_map := updf st.change_map (y * H_RES + x) false }
      (fun a ha => hxs a (List.mem_cons_of_mem x ha)) hy hcur
    exact ⟨cm, hcm⟩

theorem foldB_rows (cur : Nat → Nat) :
    ∀ (ys : List Nat) (st : State), (∀ y ∈ ys, y < V_RES) →
    (∀ i, i < H_RES * V_RES * 4 → cur i = st.prev_framebuffer i) →
    ∃ cm, ys.foldl (trackRow cur) st = { st with change_map := cm } := by
  intro ys
  induction ys with
  | nil => intro st _ _; exact ⟨st.change_map, rfl⟩
  | cons y ys ih =>
    intro st hys hcur
    rw [List.foldl_cons]
    obtain ⟨cm1, hcm1⟩ := foldB_pixels cur y (List.range H_RES) st
      (fun a ha => List.mem_range.mp ha) (hys y (List.mem_cons_self y ys)) hcur
    unfold trackRow
    rw [hcm1]
    obtain ⟨cm2, hcm2⟩ := ih { st with change_map := cm1 }
      (fun a ha => hys a (List.mem_cons_of_mem y ha)) hcur
    exact ⟨cm2, hcm2⟩

theorem foldC_pixels (cur : Nat → Nat) (y : Nat) :
    ∀ (n a : Nat) (st : State), 1 ≤ n → a + n ≤ H_RES → y < V_RES →
    (∀ i, i < H_RES * V_RES * 4 → cur i ≠ st.prev_framebuffer i) →
    ((List.range' a n).foldl (trackPixel cur y) st).changed_pixels = st.changed_pixels + n ∧
    ((List.range' a n).foldl (trackPixel cur y) st).min_x = min st.min_x (a : Int) ∧
    ((List.range' a n).foldl (trackPixel cur y) st).max_x = max st.max_x ((a : Int) + n - 1) ∧
    ((List.range' a n).foldl (trackPixel cur y) st).min_y = min st.min_y (y : Int) ∧
    ((List.range' a n).foldl (trackPixel cur y) st).max_y = max st.max_y (y : Int) ∧
    ((List.range' a n).foldl (trackPixel cur y) st).prev_framebuffer = st.prev_framebuffer := by
  intro n
  induction n with
  | zero => omega
  | succ m ih =>
    intro a st _ han hy hne
    have hb : (y * H_RES + a) * 4 < H_RES * V_RES * 4 := by
      have : y * H_RES + a < H_RES * V_RES := by
        have h1 : y * H_RES ≤ (V_RES - 1) * H_RES := by
          apply Nat.mul_le_mul_right
          omega
        simp only [H_RES, V_RES] at *
        omega
      omega
    have hpc : pixelChanged st cur ((y * H_RES + a) * 4) = true :=
      pixelChanged_of_ne st cur _ (hne _ hb)
    have step := trackPixel_changed_projs cur y st a hpc
    rw [List.range'_succ, List.foldl_cons]
    rcases Nat.eq_zero_or_pos m with hm | hm
    · subst hm
      simp only [List.range', List.foldl_nil]
      refine ⟨?_, ?_, ?_, ?_, ?_, step.2.2.2.2.2⟩
      · rw [step.1]
      · rw [step.2.1]
      · rw [step.2.2.1]; congr 1; omega
      · rw [step.2.2.2.1]
      · rw [step.2.2.2.2.1]
    · have ihm := ih (a + 1) (trackPixel cur y st a) hm (by omega) hy
        (by rw [step.2.2.2.2.2]; exact hne)
      refine ⟨?_, ?_, ?_, ?_, ?_, ?_⟩
      · rw [ihm.1, step.1]; omega
      · rw [ihm.2.1, step.2.1]; push_cast; omega
      · rw [ihm.2.2.1, step.2.2.1]; push_cast; omega
      · rw [ihm.2.2.2.1, step.2.2.2.1]; omega
      · rw [ihm.2.2.2.2.1, step.2.2.2.2.1]; omega
      · rw [ihm.2.2.2.2.2, step.2.2.2.2.2]

theorem foldC_rows (cur : Nat → Nat) :
    ∀ (m b : Nat) (st : State), 1 ≤ m → b + m ≤ V_RES →
    (∀ i, i < H_RES * V_RES * 4 → cur i ≠ st.prev_framebuffer i) →
    ((List.range' b m).foldl (trackRow cur) st).changed_pixels = st.changed_pixels + m * H_RES ∧
    ((List.range' b m).foldl (trackRow cur) st).min_x = min st.min_x 0 ∧
    ((List.range' b m).foldl (trackRow cur) st).max_x = max st.max_x ((H_RES : Int) - 1) ∧
    ((List.range' b m).foldl (trackRow cur) st).min_y = min st.min_y (b : Int) ∧
    ((List.range' b m).foldl (trackRow cur) st).max_y = max st.max_y ((b : Int) + m - 1) ∧
    ((List.range' b m).foldl (trackRow cur) st).prev_framebuffer = st.prev_framebuffer := by
  intro m
  induction m with
  | zero => omega
  | succ k ih =>
    intro b st _ hbm hne
    have hrow : trackRow cur st b = (List.range' 0 H_RES).foldl (trackPixel cur b) st := by
      unfold trackRow
      rw [List.range_eq_range']
    have step := foldC_pixels cur b H_RES 0 st (by norm_num) (by omega) (by omega) hne
    rw [← hrow] at step
    rw [List.range'_succ, List.foldl_cons]
    rcases Nat.eq_zero_or_pos k with hk | hk
    · subst hk
      simp only [List.range', List.foldl_nil]
      refine ⟨?_, ?_, ?_, ?_, ?_, step.2.2.2.2.2⟩
      · rw [step.1]
        simp only [H_RES]
        try omega
      · rw [step.2.1]
        push_cast
        omega
      · rw [step.2.2.1]
        simp only [H_RES]
        push_cast
        try omega
      · rw [step.2.2.2.1]
      · rw [step.2.2.2.2.1]
        push_cast
        omega
    · have ihk := ih (b + 1) (trackRow cur st b) hk (by omega)
        (by rw [step.2.2.2.2.2]; exact hne)
      refine ⟨?_, ?_, ?_, ?_, ?_, ?_⟩
      · rw [ihk.1, step.1]
        simp only [H_RES]
        try omega
      · rw [ihk.2.1, step.2.1]
        push_cast
        omega
      · rw [ihk.2.2.1, step.2.2.1]
        simp only [H_RES]
        push_cast
        try omega
      · rw [ihk.2.2.2.1, step.2.2.2.1]
        push_cast
        omega
      · rw [ihk.2.2.2.2.1, step.2.2.2.2.1]
        push_cast
        omega
      · rw [ihk.2.2.2.2.2, step.2.2.2.2.2]

theorem track_first (st : State) (cur : Nat → Nat) (h : st.first_frame = true) :
    track st cur = { st with prev_framebuffer := cur, first_frame := false } := by
  unfold track
  rw [if_pos h]

theorem track_nochange_projs (st : State) (cur : Nat → Nat)
    (hff : st.first_frame = false)
    (hcur : ∀ i, i < H_RES * V_RES * 4 → cur i = st.prev_framebuffer i) :
    (track st cur).changed_pixels = 0 ∧
    (track st cur).dirty_tile_count = 0 ∧
    ∀ t, (track st cur).dirty_tiles t = false := by
  unfold track
  rw [if_neg (by rw [hff]; exact Bool.false_ne_true)]
  dsimp only
  obtain ⟨cm, hcm⟩ := foldB_rows cur (List.range V_RES)
    { st with min_x := (H_RES : Int), max_x := -1, min_y := (V_RES : Int), max_y := -1,
              changed_pixels := 0, dirty_tile_count := 0, dirty_tiles := fun _ => false }
    (fun a ha => List.mem_range.mp ha) (fun i hi => hcur i hi)
  rw [hcm]
  refine ⟨?_, ?_, fun t => ?_⟩ <;>
    (simp only [apply_ite State.changed_pixels, apply_ite State.dirty_tile_count,
      apply_ite State.dirty_tiles, ite_apply, ite_self]
     try rfl)

set_option maxRecDepth 4000 in
theorem track_allchanged_projs (st : State) (cur : Nat → Nat)
    (hff : st.first_frame = false)
    (hne : ∀ i, i < H_RES * V_RES * 4 → cur i ≠ st.prev_framebuffer i) :
    (track st cur).changed_pixels = H_RES * V_RES ∧
    (track st cur).min_x = 0 ∧
    (track st cur).max_x = (H_RES : Int) - 1 ∧
    (track st cur).min_y = 0 ∧
    (track st cur).max_y = (V_RES : Int) - 1 := by
  unfold track
  rw [if_neg (by rw [hff]; exact Bool.false_ne_true)]
  dsimp only
  rw [List.range_eq_range']
  have hrows := foldC_rows cur V_RES 0
    { st with min_x := (H_RES : Int), max_x := -1, min_y := (V_RES : Int), max_y := -1,
              changed_pixels := 0, dirty_tile_count := 0, dirty_tiles := fun _ => false }
    (by norm_num) (by norm_num) (fun i hi => hne i hi)
  refine ⟨?_, ?_, ?_, ?_, ?_⟩
  · simp only [apply_ite State.changed_pixels, ite_self]
    rw [hrows.1]
    dsimp only
    simp only [H_RES, V_RES]
    try norm_num
  · simp only [apply_ite State.min_x, ite_self]
    rw [hrows.2.1]
    dsimp only
    decide
  · simp only [apply_ite State.max_x, ite_self]
    rw [hrows.2.2.1]
    dsimp only
    decide
  · simp only [apply_ite State.min_y, ite_self]
    rw [hrows.2.2.2.1]
    dsimp only
    decide
  · simp only [apply_ite State.max_y, ite_self]
    rw [hrows.2.2.2.2.1]
    dsimp only
    push_cast
    decide

end ChangeTracker

/-- C7.  ChangeTracker diff correctness: the first tracked snapshot only
establishes the baseline (the framebuffer is copied, `first_frame`
cleared, and no change statistics are produced); a tracked frame
identical in all four channels of every pixel to the previous snapshot
yields `changed_pixels = 0` and zero dirty tiles (the whole dirty-tile
bitmap is clean); and tracking an all-maximum-value (255) frame right
after an all-zero baseline yields `changed_pixels = H_RES * V_RES` with
a bounding box covering the full frame: position `(0, 0)`, size
`H_RES` by `V_RES`. -/
theorem changeTracker_diff_correctness :
    (∀ (st : ChangeTracker.State) (cur : Nat → Nat), st.first_frame = true →
      ChangeTracker.track st cur =
        { st with prev_framebuffer := cur, first_frame := false }) ∧
    (∀ (st : ChangeTracker.State) (cur : Nat → Nat), st.first_frame = false →
      (∀ i, i < H_RES * V_RES * 4 → cur i = st.prev_framebuffer i) →
      (ChangeTracker.track st cur).changed_pixels = 0 ∧
      (ChangeTracker.track st cur).dirty_tile_count = 0 ∧
      ∀ t, (ChangeTracker.track st cur).dirty_tiles t = false) ∧
    ((ChangeTracker.track (ChangeTracker.track ChangeTracker.init (fun _ => 0))
        (fun _ => 255)).changed_pixels = H_RES * V_RES ∧
     ChangeTracker.get_dirty_rect
        (ChangeTracker.track (ChangeTracker.track ChangeTracker.init (fun _ => 0))
          (fun _ => 255)) = some (0, 0, (H_RES : Int), (V_RES : Int))) := by
  refine ⟨ChangeTracker.track_first, ChangeTracker.track_nochange_projs, ?_⟩
  have hbase : ChangeTracker.track ChangeTracker.init (fun _ => 0) =
      { ChangeTracker.init with prev_framebuffer := (fun _ => 0), first_frame := false } :=
    ChangeTracker.track_first _ _ rfl
  have hne255 : ∀ i, i < H_RES * V_RES * 4 →
      (fun _ => (255 : Nat)) i ≠
        (ChangeTracker.track ChangeTracker.init (fun _ => 0)).prev_framebuffer i := by
    intro i _
    rw [hbase]
    dsimp only
    decide
  have hff2 : (ChangeTracker.track ChangeTracker.init (fun _ => 0)).first_frame = false := by
    rw [hbase]
  have hp := ChangeTracker.track_allchanged_projs
    (ChangeTracker.track ChangeTracker.init (fun _ => 0))
    (fun _ => 255) hff2 hne255
  refine ⟨hp.1, ?_⟩
  unfold ChangeTracker.get_dirty_rect
  rw [if_neg]
  · rw [hp.2.1, hp.2.2.1, hp.2.2.2.1, hp.2.2.2.2]
    norm_num
  · rintro (h | h)
    · rw [hp.1] at h
      simp [H_RES, V_RES] at h
    · rw [hp.2.2.1] at h
      simp [H_RES] at h

theorem changeTracker_diff_correctness_witness :
    ChangeTracker.track ChangeTracker.init (fun _ => 3) =
      { ChangeTracker.init with prev_framebuffer := (fun _ => 3), first_frame := false } ∧
    (ChangeTracker.track { ChangeTracker.init with first_frame := false }
        (fun _ => 0)).changed_pixels = 0 :=
  ⟨changeTracker_diff_correctness.1 ChangeTracker.init (fun _ => 3) rfl,
   (changeTracker_diff_correctness.2.1 { ChangeTracker.init with first_frame := false }
      (fun _ => 0) rfl (fun i _ => rfl)).1⟩

namespace SyncValidator

theorem countersBlock_projs (s : State) (h v : Bool) :
    (countersBlock s h v).first_tick = s.first_tick ∧
    (countersBlock s h v).prev_hsync = h ∧
    (countersBlock s h v).prev_vsync = v ∧
    (countersBlock s h v).vsync_seen = s.vsync_seen ∧
    (countersBlock s h v).vsync_state =
      (if s.vsync_state.in_pulse = true then
        { s.vsync_state with pulse_width := s.vsync_state.pulse_width + 1 }
      else s.vsync_state) := by
  unfold countersBlock
  dsimp only
  repeat' split
  all_goals simp_all

theorem quiet_preserves (c : Nat) (s : State) (h : SteadyVsync c s) :
    SteadyVsync c (tick s true true) := by
  obtain ⟨h1, h2, h3, h4, h5⟩ := h
  unfold tick
  rw [if_neg (by rw [h1]; exact Bool.false_ne_true)]
  dsimp only
  rw [h2, h3]
  simp only [Bool.not_true, Bool.false_and, Bool.and_false, Bool.and_true,
    Bool.true_and, Bool.and_not_self, Bool.not_and_self]
  simp only [Bool.false_eq_true, if_false]
  have cb := countersBlock_projs s true true
  refine ⟨?_, cb.2.1, cb.2.2.1, ?_, ?_⟩
  · rw [cb.1]; exact h1
  · rw [cb.2.2.2.1]; exact h4
  · rw [cb.2.2.2.2]
    rw [h5]
    rfl

theorem quiet_replicate (c : Nat) :
    ∀ (n : Nat) (s : State), SteadyVsync c s →
      SteadyVsync c ((List.replicate n true).foldl (fun s v => tick s true v) s) := by
  intro n
  induction n with
  | zero => intro s h; exact h
  | succ m ih =>
    intro s h
    rw [List.replicate_succ, List.foldl_cons]
    exact ih _ (quiet_preserves c s h)

theorem svGapPrefix_steady (n : Nat) : SteadyVsync 1 (svGapPrefix n) := by
  unfold svGapPrefix runVsync
  rw [List.foldl_append]
  exact quiet_replicate 1 n _ (by decide)

theorem vFallBlock_error (s : State) (hseen : s.vsync_seen = true)
    (hsince : s.vsync_state.since_last_edge = 0) :
    (vFallBlock s).vsync_state.error_count = s.vsync_state.error_count + 1 := by
  unfold vFallBlock
  dsimp only
  rw [if_pos ⟨hseen, by rw [hsince]; norm_num⟩]

theorem countersBlock_vsync_error (s : State) (h v : Bool) :
    (countersBlock s h v).vsync_state.error_count = s.vsync_state.error_count := by
  have cb := countersBlock_projs s h v
  rw [cb.2.2.2.2]
  split <;> rfl

theorem fall_tick_error (c : Nat) (s : State) (h : SteadyVsync c s) :
    (tick s true false).vsync_state.error_count = s.vsync_state.error_count + 1 := by
  obtain ⟨h1, h2, h3, h4, h5⟩ := h
  unfold tick
  rw [if_neg (by rw [h1]; exact Bool.false_ne_true)]
  dsimp only
  rw [h2, h3]
  simp only [Bool.not_true, Bool.not_false, Bool.false_and, Bool.and_false,
    Bool.and_true, Bool.true_and]
  simp only [Bool.false_eq_true, if_false, if_true]
  rw [countersBlock_vsync_error]
  exact vFallBlock_error s h4 (by rw [h5])

end SyncValidator

/-- C3 (code bug).  The claim says a vsync falling edge is counted as a
glitch if and only if it arrives earlier than the expected period between
vsync falling edges minus the tolerance (2) — so an edge arriving at or
after that bound must not be counted.  The code violates this: the vsync
tracker's `since_last_edge` is never incremented anywhere (only the hsync
tracker's is, in the per-cycle counter block), so it is permanently 0 and
`0 < V_SYNC * H_TOTAL - TOLERANCE` always holds.  This theorem exhibits
the divergence: feed a vsync stream whose second falling edge arrives
`n + 2` clocks after the first (the two falls sit at tick indices 1 and
`3 + n` of the stream), with `n + 2` at least the claimed bound — even at
least a full frame period `V_TOTAL * H_TOTAL` — and the glitch branch
still increments the vsync `error_count`.  Consequently the validator
counts a vsync glitch on every frame of a perfect periodic signal. -/
theorem syncValidator_vsync_glitch_code_bug (n : Nat)
    (hlate : V_TOTAL * H_TOTAL - SyncValidator.TOLERANCE ≤ n + 2) :
    (SyncValidator.tick (SyncValidator.svGapPrefix n) true false).vsync_state.error_count =
      (SyncValidator.svGapPrefix n).vsync_state.error_count + 1 :=
  SyncValidator.fall_tick_error 1 _ (SyncValidator.svGapPrefix_steady n)

theorem syncValidator_vsync_glitch_code_bug_witness :
    V_TOTAL * H_TOTAL - SyncValidator.TOLERANCE ≤ 432638 + 2 ∧
    (SyncValidator.tick (SyncValidator.svGapPrefix 432638) true false).vsync_state.error_count =
      (SyncValidator.svGapPrefix 432638).vsync_state.error_count + 1 :=
  ⟨by decide, syncValidator_vsync_glitch_code_bug 432638 (by decide)⟩


/-! ### C6: TimingMonitor boundary behavior

The synthetic stimulus is built from `TimingMonitor.lineList` and
`TimingMonitor.frameList`.  The proofs thread a fully parametric state
template `tmSt` through the stream: per-block lemmas on the template,
then single-tick lemmas for each edge combination, then whole-line,
line-block and whole-frame lemmas. -/

namespace TimingMonitor


theorem runTM_append (s : State) (a b : List Sample) :
    runTM s (a ++ b) = runTM (runTM s a) b := by
  simp only [runTM, List.foldl_append]

theorem runTM_cons (s : State) (x : Sample) (l : List Sample) :
    runTM s (x :: l) = runTM (tickS s x) l := rfl

theorem runTM_nil (s : State) : runTM s [] = s := rfl

/-- A quiet tick: no edge (previous values match the inputs), so only
per-cycle counters advance. -/
theorem tick_quiet (hc vc hpw vpl haw val : Nat) (h v a ihp ivp hs vs fc : Bool)
    (eh ev eht evt eha eva : Nat) (sil : Bool) :
    tick (tmSt hc vc hpw vpl haw val h v ihp ivp hs vs fc false eh ev eht evt eha eva sil)
      h v a =
    tmSt (hc + 1) vc (hpw + cond h 0 1) vpl (haw + cond a 1 0) val h v ihp ivp hs vs fc false
      eh ev eht evt eha eva sil := by
  cases h <;> cases v <;> cases a <;>
    simp [tick, tmSt, cycleBlock]

/-- A quiet run of `n` identical samples. -/
theorem run_seg (n : Nat) (hc vc hpw vpl haw val : Nat) (h v a ihp ivp hs vs fc : Bool)
    (eh ev eht evt eha eva : Nat) (sil : Bool) :
    runTM (tmSt hc vc hpw vpl haw val h v ihp ivp hs vs fc false eh ev eht evt eha eva sil)
      (List.replicate n ⟨h, v, a, 0⟩) =
    tmSt (hc + n) vc (hpw + cond h 0 n) vpl (haw + cond a n 0) val h v ihp ivp hs vs fc false
      eh ev eht evt eha eva sil := by
  induction n generalizing hc hpw haw with
  | zero => cases h <;> cases a <;> simp [runTM]
  | succ n ih =>
    rw [List.replicate_succ, runTM_cons]
    show runTM (tick _ h v a) _ = _
    rw [tick_quiet, ih]
    cases h <;> cases a <;> (simp [tmSt, State.mk.injEq]; try omega)

theorem tmSt_fs (hc vc hpw vpl haw val : Nat) (ph pv ihp ivp hs vs fc fs : Bool)
    (eh ev eht evt eha eva : Nat) (sil : Bool) :
    (tmSt hc vc hpw vpl haw val ph pv ihp ivp hs vs fc fs eh ev eht evt eha eva sil).first_sample
      = fs := rfl

theorem tmSt_ph (hc vc hpw vpl haw val : Nat) (ph pv ihp ivp hs vs fc fs : Bool)
    (eh ev eht evt eha eva : Nat) (sil : Bool) :
    (tmSt hc vc hpw vpl haw val ph pv ihp ivp hs vs fc fs eh ev eht evt eha eva sil).prev_hsync
      = ph := rfl

theorem tmSt_pv (hc vc hpw vpl haw val : Nat) (ph pv ihp ivp hs vs fc fs : Bool)
    (eh ev eht evt eha eva : Nat) (sil : Bool) :
    (tmSt hc vc hpw vpl haw val ph pv ihp ivp hs vs fc fs eh ev eht evt eha eva sil).prev_vsync
      = pv := rfl

theorem cycleBlock_tmSt (hc vc hpw vpl haw val : Nat) (ph pv ihp ivp hs vs fc fs : Bool)
    (eh ev eht evt eha eva : Nat) (sil : Bool) (h v a : Bool) :
    cycleBlock (tmSt hc vc hpw vpl haw val ph pv ihp ivp hs vs fc fs eh ev eht evt eha eva sil)
      h v a =
    tmSt (hc + 1) vc (hpw + cond h 0 1) vpl (haw + cond a 1 0) val h v ihp ivp hs vs fc fs
      eh ev eht evt eha eva sil := by
  cases h <;> cases a <;> simp [cycleBlock, tmSt]

theorem tmSt_hseen (hc vc hpw vpl haw val : Nat) (ph pv ihp ivp hs vs fc fs : Bool)
    (eh ev eht evt eha eva : Nat) (sil : Bool) :
    (tmSt hc vc hpw vpl haw val ph pv ihp ivp hs vs fc fs eh ev eht evt eha eva sil).hsync_seen
      = hs := rfl

theorem htErr_tmSt (hc vc hpw vpl haw val : Nat) (ph pv ihp ivp hs vs fc fs : Bool)
    (eh ev eht evt eha eva : Nat) (sil : Bool) :
    htErr (tmSt hc vc hpw vpl haw val ph pv ihp ivp hs vs fc fs eh ev eht evt eha eva sil) =
    tmSt hc vc hpw vpl haw val ph pv ihp ivp hs vs fc fs eh ev
      (eht + if within_tolerance hc H_TOTAL = false then 1 else 0) evt eha eva sil := by
  unfold htErr
  split
  all_goals simp_all [tmSt, State.mk.injEq]

theorem haErr_tmSt (hc vc hpw vpl haw val : Nat) (ph pv ihp ivp hs vs fc fs : Bool)
    (eh ev eht evt eha eva : Nat) (sil : Bool) :
    haErr (tmSt hc vc hpw vpl haw val ph pv ihp ivp hs vs fc fs eh ev eht evt eha eva sil) =
    tmSt hc vc hpw vpl haw val ph pv ihp ivp hs vs fc fs eh ev eht evt
      (eha + if 0 < haw ∧ within_tolerance haw H_RES = false then 1 else 0) eva sil := by
  unfold haErr
  split
  all_goals simp_all [tmSt, State.mk.injEq]

theorem valInc_tmSt (hc vc hpw vpl haw val : Nat) (ph pv ihp ivp hs vs fc fs : Bool)
    (eh ev eht evt eha eva : Nat) (sil : Bool) :
    valInc (tmSt hc vc hpw vpl haw val ph pv ihp ivp hs vs fc fs eh ev eht evt eha eva sil) =
    tmSt hc vc hpw vpl haw (val + if 0 < haw then 1 else 0)
      ph pv ihp ivp hs vs fc fs eh ev eht evt eha eva sil := by
  unfold valInc
  split
  all_goals simp_all [tmSt, State.mk.injEq]

theorem vplInc_tmSt (hc vc hpw vpl haw val : Nat) (ph pv ihp ivp hs vs fc fs : Bool)
    (eh ev eht evt eha eva : Nat) (sil : Bool) (v : Bool) :
    vplInc (tmSt hc vc hpw vpl haw val ph pv ihp ivp hs vs fc fs eh ev eht evt eha eva sil) v =
    tmSt hc vc hpw (vpl + if v = false then 1 else 0) haw val
      ph pv ihp ivp hs vs fc fs eh ev eht evt eha eva sil := by
  unfold vplInc
  split
  all_goals simp_all [tmSt, State.mk.injEq]

theorem hFallBlock_tmSt (hc vc hpw vpl haw val : Nat) (ph pv ihp ivp hs vs fc fs : Bool)
    (eh ev eht evt eha eva : Nat) (sil : Bool) (v : Bool) :
    hFallBlock (tmSt hc vc hpw vpl haw val ph pv ihp ivp hs vs fc fs eh ev eht evt eha eva sil)
      v =
    tmSt 0 (vc + cond hs 1 0) 0
      (vpl + if hs = true ∧ v = false then 1 else 0)
      0 (val + if hs = true ∧ 0 < haw then 1 else 0)
      ph pv true ivp true vs fc fs
      eh ev
      (eht + if hs = true ∧ within_tolerance hc H_TOTAL = false then 1 else 0)
      evt
      (eha + if hs = true ∧ 0 < haw ∧ within_tolerance haw H_RES = false then 1 else 0)
      eva sil := by
  cases hs with
  | false =>
    unfold hFallBlock
    rw [if_neg (by rw [tmSt_hseen]; exact Bool.false_ne_true)]
    simp [tmSt, State.mk.injEq]
  | true =>
    unfold hFallBlock
    rw [if_pos (tmSt_hseen hc vc hpw vpl haw val ph pv ihp ivp true vs fc fs
      eh ev eht evt eha eva sil)]
    rw [htErr_tmSt, haErr_tmSt]
    rw [show ({ tmSt hc vc hpw vpl haw val ph pv ihp ivp true vs fc fs eh ev
        (eht + if within_tolerance hc H_TOTAL = false then 1 else 0) evt
        (eha + if 0 < haw ∧ within_tolerance haw H_RES = false then 1 else 0) eva sil with
        v_counter := (tmSt hc vc hpw vpl haw val ph pv ihp ivp true vs fc fs eh ev
          (eht + if within_tolerance hc H_TOTAL = false then 1 else 0) evt
          (eha + if 0 < haw ∧ within_tolerance haw H_RES = false then 1 else 0) eva
          sil).v_counter + 1 } : State) =
      tmSt hc (vc + 1) hpw vpl haw val ph pv ihp ivp true vs fc fs eh ev
        (eht + if within_tolerance hc H_TOTAL = false then 1 else 0) evt
        (eha + if 0 < haw ∧ within_tolerance haw H_RES = false then 1 else 0) eva sil
      from by simp [tmSt]]
    rw [valInc_tmSt, vplInc_tmSt]
    simp [tmSt, State.mk.injEq]

theorem hRiseBlock_tmSt (hc vc hpw vpl haw val : Nat) (ph pv ihp ivp hs vs fc fs : Bool)
    (eh ev eht evt eha eva : Nat) (sil : Bool) :
    hRiseBlock (tmSt hc vc hpw vpl haw val ph pv ihp ivp hs vs fc fs eh ev eht evt eha eva sil) =
    tmSt hc vc hpw vpl haw val ph pv false ivp hs vs fc fs
      (eh + if hs = true ∧ within_tolerance hpw H_SYNC = false then 1 else 0)
      ev eht evt eha eva sil := by
  cases hs <;>
    (simp only [hRiseBlock, tmSt]
     try dsimp only
     repeat' split
     all_goals (try simp_all [State.mk.injEq])
     all_goals omega)

theorem vFallBlock_tmSt (hc vc hpw vpl haw val : Nat) (ph pv ihp ivp hs vs fc fs : Bool)
    (eh ev eht evt eha eva : Nat) (sil : Bool) :
    vFallBlock (tmSt hc vc hpw vpl haw val ph pv ihp ivp hs vs fc fs eh ev eht evt eha eva sil) =
    tmSt hc 0 hpw 0 haw 0 ph pv ihp true hs true (cond vs true fc) fs
      eh ev eht
      (evt + if vs = true ∧ within_tolerance vc V_TOTAL = false then 1 else 0)
      eha
      (eva + if vs = true ∧ 0 < val ∧ within_tolerance val V_RES = false then 1 else 0)
      (cond vs true sil) := by
  cases vs <;>
    (simp only [vFallBlock, tmSt]
     try dsimp only
     repeat' split
     all_goals (try simp_all [State.mk.injEq])
     all_goals omega)

theorem vRiseBlock_tmSt (hc vc hpw vpl haw val : Nat) (ph pv ihp ivp hs vs fc fs : Bool)
    (eh ev eht evt eha eva : Nat) (sil : Bool) :
    vRiseBlock (tmSt hc vc hpw vpl haw val ph pv ihp ivp hs vs fc fs eh ev eht evt eha eva sil) =
    tmSt hc vc hpw vpl haw val ph pv ihp false hs vs fc fs
      eh (ev + if vs = true ∧ within_tolerance vpl V_SYNC = false then 1 else 0)
      eht evt eha eva sil := by
  cases vs <;>
    (simp only [vRiseBlock, tmSt]
     try dsimp only
     repeat' split
     all_goals (try simp_all [State.mk.injEq])
     all_goals omega)

/-- Hsync falling edge, vsync steady: the `h_fall` block runs (line
validation gated on `hsync_seen`), then the per-cycle counters. -/
theorem tick_hfall (hc vc hpw vpl haw val : Nat) (vv ihp0 ivp hs vs fc : Bool)
    (eh ev eht evt eha eva : Nat) (sil : Bool) :
    tick (tmSt hc vc hpw vpl haw val true vv ihp0 ivp hs vs fc false eh ev eht evt eha eva sil)
      false vv false =
    tmSt 1 (vc + cond hs 1 0) 1
      (vpl + if hs = true ∧ vv = false then 1 else 0)
      0 (val + if hs = true ∧ 0 < haw then 1 else 0)
      false vv true ivp true vs fc false
      eh ev
      (eht + if hs = true ∧ within_tolerance hc H_TOTAL = false then 1 else 0)
      evt
      (eha + if hs = true ∧ 0 < haw ∧ within_tolerance haw H_RES = false then 1 else 0)
      eva sil := by
  cases vv <;>
    (unfold tick
     rw [if_neg (by rw [tmSt_fs]; exact Bool.false_ne_true)]
     dsimp only
     rw [tmSt_ph, tmSt_pv]
     simp only [Bool.not_true, Bool.not_false, Bool.and_true, Bool.and_false,
       Bool.true_and, Bool.false_and, Bool.and_self, Bool.not_and_self, Bool.and_not_self]
     simp
     rw [hFallBlock_tmSt, cycleBlock_tmSt]
     simp [tmSt, State.mk.injEq]
     try omega)

/-- Hsync rising edge: the `h_rise` block runs, then the per-cycle
counters. -/
theorem tick_hrise (hc vc hpw vpl haw val : Nat) (vv ihp0 ivp hs vs fc : Bool)
    (eh ev eht evt eha eva : Nat) (sil : Bool) :
    tick (tmSt hc vc hpw vpl haw val false vv ihp0 ivp hs vs fc false eh ev eht evt eha eva sil)
      true vv false =
    tmSt (hc + 1) vc hpw vpl haw val true vv false ivp hs vs fc false
      (eh + if hs = true ∧ within_tolerance hpw H_SYNC = false then 1 else 0)
      ev eht evt eha eva sil := by
  cases vv <;>
    (unfold tick
     rw [if_neg (by rw [tmSt_fs]; exact Bool.false_ne_true)]
     dsimp only
     rw [tmSt_ph, tmSt_pv]
     simp only [Bool.not_true, Bool.not_false, Bool.and_true, Bool.and_false,
       Bool.true_and, Bool.false_and, Bool.and_self, Bool.not_and_self, Bool.and_not_self]
     simp
     rw [hRiseBlock_tmSt, cycleBlock_tmSt]
     simp [tmSt, State.mk.injEq]
     try omega)

/-- Frame-start tick: both vsync and hsync fall on the same clock. -/
theorem tick_vfall (hc vc hpw vpl haw val : Nat) (ihp0 ivp0 hs vs fc : Bool)
    (eh ev eht evt eha eva : Nat) (sil : Bool) :
    tick (tmSt hc vc hpw vpl haw val true true ihp0 ivp0 hs vs fc false eh ev eht evt eha eva sil)
      false false false =
    tmSt 1 (cond hs 1 0) 1 (cond hs 1 0) 0 (if hs = true ∧ 0 < haw then 1 else 0)
      false false true true true true (cond vs true fc) false
      eh ev
      (eht + if hs = true ∧ within_tolerance hc H_TOTAL = false then 1 else 0)
      (evt + if vs = true ∧ within_tolerance vc V_TOTAL = false then 1 else 0)
      (eha + if hs = true ∧ 0 < haw ∧ within_tolerance haw H_RES = false then 1 else 0)
      (eva + if vs = true ∧ 0 < val ∧ within_tolerance val V_RES = false then 1 else 0)
      (cond vs true sil) := by
  unfold tick
  rw [if_neg (by rw [tmSt_fs]; exact Bool.false_ne_true)]
  dsimp only
  rw [tmSt_ph, tmSt_pv]
  simp only [Bool.not_true, Bool.not_false, Bool.and_true, Bool.and_false,
    Bool.true_and, Bool.false_and, Bool.and_self, Bool.not_and_self, Bool.and_not_self]
  simp
  rw [vFallBlock_tmSt, hFallBlock_tmSt, cycleBlock_tmSt]
  simp [tmSt, State.mk.injEq]
  try omega

/-- Vsync rising edge together with an hsync falling edge (start of the
first back-porch line). -/
theorem tick_vrise (hc vc hpw vpl haw val : Nat) (ihp0 ivp0 hs vs fc : Bool)
    (eh ev eht evt eha eva : Nat) (sil : Bool) :
    tick (tmSt hc vc hpw vpl haw val true false ihp0 ivp0 hs vs fc false eh ev eht evt eha eva sil)
      false true false =
    tmSt 1 (vc + cond hs 1 0) 1 vpl 0 (val + if hs = true ∧ 0 < haw then 1 else 0)
      false true true false true vs fc false
      eh (ev + if vs = true ∧ within_tolerance vpl V_SYNC = false then 1 else 0)
      (eht + if hs = true ∧ within_tolerance hc H_TOTAL = false then 1 else 0)
      evt
      (eha + if hs = true ∧ 0 < haw ∧ within_tolerance haw H_RES = false then 1 else 0)
      eva sil := by
  unfold tick
  rw [if_neg (by rw [tmSt_fs]; exact Bool.false_ne_true)]
  dsimp only
  rw [tmSt_ph, tmSt_pv]
  simp only [Bool.not_true, Bool.not_false, Bool.and_true, Bool.and_false,
    Bool.true_and, Bool.false_and, Bool.and_self, Bool.not_and_self, Bool.and_not_self]
  simp
  rw [vRiseBlock_tmSt, hFallBlock_tmSt, cycleBlock_tmSt]
  simp [tmSt, State.mk.injEq]
  try omega

/-- The very first sample only latches the previous-signal registers. -/
theorem tick_first (hc vc hpw vpl haw val : Nat) (ph pv ihp ivp hs vs fc : Bool)
    (eh ev eht evt eha eva : Nat) (sil : Bool) (h v a : Bool) :
    tick (tmSt hc vc hpw vpl haw val ph pv ihp ivp hs vs fc true eh ev eht evt eha eva sil)
      h v a =
    tmSt hc vc hpw vpl haw val h v ihp ivp hs vs fc false eh ev eht evt eha eva sil := by
  simp [tick, tmSt]


/-- Running one synthetic line from a line-start state: the line total
and active width validate cleanly; the hsync pulse width check records
an error exactly when `W` is out of tolerance. -/
theorem run_line (W : Nat) (hW1 : 1 ≤ W) (hW2 : W ≤ H_SYNC + H_BP - 1)
    (vc hpw0 vpl haw0 val : Nat) (vv act ihp0 ivp vs fc sil : Bool)
    (eh ev eht evt eha eva : Nat) :
    runTM (tmSt H_TOTAL vc hpw0 vpl haw0 val true vv ihp0 ivp true vs fc false
        eh ev eht evt eha eva sil)
      (lineList W vv act) =
    tmSt H_TOTAL (vc + 1) W (vpl + if vv = false then 1 else 0) (cond act H_RES 0)
      (val + if 0 < haw0 then 1 else 0) true vv false ivp true vs fc false
      (eh + if within_tolerance W H_SYNC = false then 1 else 0) ev eht evt
      (eha + if 0 < haw0 ∧ within_tolerance haw0 H_RES = false then 1 else 0) eva sil := by
  obtain ⟨W', rfl⟩ : ∃ W', W = W' + 1 := ⟨W - 1, by omega⟩
  unfold lineList
  rw [List.replicate_succ]
  rw [show H_SYNC + H_BP - (W' + 1) = (166 - W') + 1 from by
    simp only [H_SYNC, H_BP] at hW2 ⊢; omega]
  rw [List.replicate_succ]
  simp only [List.append_assoc, List.cons_append]
  rw [runTM_cons]
  dsimp only [tickS]
  rw [tick_hfall]
  rw [runTM_append, run_seg]
  rw [runTM_cons]
  dsimp only [tickS]
  rw [tick_hrise]
  rw [runTM_append, run_seg]
  rw [runTM_append, run_seg]
  rw [run_seg]
  simp only [tmSt, State.mk.injEq]
  norm_num
  simp only [H_SYNC, H_BP] at hW2
  have hw : 1 + W' = W' + 1 := by omega
  rw [hw]
  refine ⟨by omega, ?_⟩
  norm_num
  decide

/-- The frame-start line: vsync and hsync fall together on its first
clock; when a vsync fall was already seen the previous frame's totals
are validated and the monitor enters silent mode with `frame_complete`
set. -/
theorem run_line_vfall (vc hpw0 vpl0 haw0 val : Nat) (ihp0 ivp0 vs fc sil : Bool)
    (eh ev eht evt eha eva : Nat) :
    runTM (tmSt H_TOTAL vc hpw0 vpl0 haw0 val true true ihp0 ivp0 true vs fc false
        eh ev eht evt eha eva sil)
      (lineList H_SYNC false false) =
    tmSt H_TOTAL 1 H_SYNC 1 0 (if 0 < haw0 then 1 else 0)
      true false false true true true (cond vs true fc) false
      eh ev eht
      (evt + if vs = true ∧ within_tolerance vc V_TOTAL = false then 1 else 0)
      (eha + if 0 < haw0 ∧ within_tolerance haw0 H_RES = false then 1 else 0)
      (eva + if vs = true ∧ 0 < val ∧ within_tolerance val V_RES = false then 1 else 0)
      (cond vs true sil) := by
  unfold lineList
  rw [show List.replicate H_SYNC (⟨false, false, false, 0⟩ : Sample) =
      ⟨false, false, false, 0⟩ :: List.replicate 39 ⟨false, false, false, 0⟩ from rfl]
  rw [show List.replicate (H_SYNC + H_BP - H_SYNC) (⟨true, false, false, 0⟩ : Sample) =
      ⟨true, false, false, 0⟩ :: List.replicate 127 ⟨true, false, false, 0⟩ from rfl]
  simp only [List.append_assoc, List.cons_append]
  rw [runTM_cons]
  dsimp only [tickS]
  rw [tick_vfall]
  rw [runTM_append, run_seg]
  rw [runTM_cons]
  dsimp only [tickS]
  rw [tick_hrise]
  rw [runTM_append, run_seg]
  rw [runTM_append, run_seg]
  rw [run_seg]
  simp only [tmSt, State.mk.injEq]
  norm_num
  decide

/-- The vsync-rise line: the vsync pulse width in lines is validated on
its first clock (when a vsync fall was already seen). -/
theorem run_line_vrise (vc hpw0 vpl haw0 val : Nat) (ihp0 ivp0 vs fc sil : Bool)
    (eh ev eht evt eha eva : Nat) :
    runTM (tmSt H_TOTAL vc hpw0 vpl haw0 val true false ihp0 ivp0 true vs fc false
        eh ev eht evt eha eva sil)
      (lineList H_SYNC true false) =
    tmSt H_TOTAL (vc + 1) H_SYNC vpl 0 (val + if 0 < haw0 then 1 else 0)
      true true false false true vs fc false
      eh (ev + if vs = true ∧ within_tolerance vpl V_SYNC = false then 1 else 0)
      eht evt
      (eha + if 0 < haw0 ∧ within_tolerance haw0 H_RES = false then 1 else 0)
      eva sil := by
  unfold lineList
  rw [show List.replicate H_SYNC (⟨false, true, false, 0⟩ : Sample) =
      ⟨false, true, false, 0⟩ :: List.replicate 39 ⟨false, true, false, 0⟩ from rfl]
  rw [show List.replicate (H_SYNC + H_BP - H_SYNC) (⟨true, true, false, 0⟩ : Sample) =
      ⟨true, true, false, 0⟩ :: List.replicate 127 ⟨true, true, false, 0⟩ from rfl]
  simp only [List.append_assoc, List.cons_append]
  rw [runTM_cons]
  dsimp only [tickS]
  rw [tick_vrise]
  rw [runTM_append, run_seg]
  rw [runTM_cons]
  dsimp only [tickS]
  rw [tick_hrise]
  rw [runTM_append, run_seg]
  rw [runTM_append, run_seg]
  rw [run_seg]
  simp only [tmSt, State.mk.injEq]
  norm_num
  decide

/-- A block of `n` nominal lines: the line counters advance, the vsync
pulse count grows on vsync-low lines, the active-line count grows on
active lines, and no error is recorded. -/
theorem run_block (n : Nat) (vc p0 vpl haw0 val : Nat) (vv act ivp vs fc sil : Bool)
    (eh ev eht evt eha eva : Nat) (hhaw : haw0 = cond act H_RES 0) :
    runTM (tmSt H_TOTAL vc p0 vpl haw0 val true vv false ivp true vs fc false
        eh ev eht evt eha eva sil)
      ((List.replicate n (lineList H_SYNC vv act)).flatten) =
    tmSt H_TOTAL (vc + n) (if n = 0 then p0 else H_SYNC)
      (vpl + n * (if vv = false then 1 else 0)) (cond act H_RES 0)
      (val + n * cond act 1 0) true vv false ivp true vs fc false
      eh ev eht evt eha eva sil := by
  subst hhaw
  induction n generalizing vc p0 vpl val eh eha with
  | zero => simp [runTM]
  | succ n ih =>
    rw [List.replicate_succ, List.flatten_cons, runTM_append]
    rw [run_line H_SYNC (by decide) (by decide)]
    rw [ih]
    have h40 : within_tolerance H_SYNC H_SYNC = true := by decide
    cases vv <;> cases act <;>
      (simp only [tmSt, State.mk.injEq, h40]
       norm_num
       repeat' apply And.intro
       all_goals first | omega | decide)

/-- Running the tail of a synthetic frame from the state at the end of
its first (frame-start) line: the frame ends back at a frame-boundary
state with `V_TOTAL` lines counted, `V_RES` active lines, the vsync
pulse measured as `P` lines, and exactly the hsync-width check of the
`W` line and the vsync-width check able to record an error. -/
theorem run_frameTail (W P : Nat) (hW1 : 1 ≤ W) (hW2 : W ≤ H_SYNC + H_BP - 1)
    (hP1 : 1 ≤ P) (hP2 : P ≤ 19) (val0 : Nat) (fcp silp : Bool)
    (eh ev eht evt eha eva : Nat) :
    runTM (tmSt H_TOTAL 1 H_SYNC 1 0 val0 true false false true true true fcp false
        eh ev eht evt eha eva silp)
      (frameTail W P) =
    tmSt H_TOTAL 520 H_SYNC P 0 (val0 + 480) true true false false true true fcp false
      (eh + if within_tolerance W H_SYNC = false then 1 else 0)
      (ev + if within_tolerance P V_SYNC = false then 1 else 0)
      eht evt eha eva silp := by
  obtain ⟨Q, rfl⟩ : ∃ Q, P = Q + 1 := ⟨P - 1, by omega⟩
  unfold frameTail
  simp only [List.append_assoc]
  rw [show (Q + 1) - 1 = Q from by omega]
  rw [runTM_append, run_block]
  rw [runTM_append, run_line_vrise]
  rw [runTM_append, run_block]
  rw [runTM_append, run_line W hW1 hW2]
  rw [runTM_append, run_block]
  rw [runTM_append, run_line H_SYNC (by decide) (by decide)]
  rw [runTM_append, run_block]
  rw [runTM_append, run_line H_SYNC (by decide) (by decide)]
  rw [run_block]
  simp only [tmSt, State.mk.injEq]
  norm_num
  rw [show 1 + Q = Q + 1 from by omega]
  repeat' apply And.intro
  all_goals first | rfl | decide | omega

theorem init_eq :
    init = tmSt 0 0 0 0 0 0 true true false false false false false true
      0 0 0 0 0 0 false := rfl

/-- The very first line of the stream: the opening sample only latches
the previous-signal registers, and the hsync rise is not validated
because no hsync fall has been seen yet. -/
theorem run_line0 :
    runTM init (lineList H_SYNC false false) =
    tmSt 831 0 39 0 0 0 true false false false false false false false
      0 0 0 0 0 0 false := by
  unfold lineList
  rw [show List.replicate H_SYNC (⟨false, false, false, 0⟩ : Sample) =
      ⟨false, false, false, 0⟩ :: List.replicate 39 ⟨false, false, false, 0⟩ from rfl]
  rw [show List.replicate (H_SYNC + H_BP - H_SYNC) (⟨true, false, false, 0⟩ : Sample) =
      ⟨true, false, false, 0⟩ :: List.replicate 127 ⟨true, false, false, 0⟩ from rfl]
  simp only [List.append_assoc, List.cons_append]
  rw [init_eq, runTM_cons]
  dsimp only [tickS]
  rw [tick_first]
  rw [runTM_append, run_seg]
  rw [runTM_cons]
  dsimp only [tickS]
  rw [tick_hrise]
  rw [runTM_append, run_seg]
  rw [runTM_append, run_seg]
  rw [run_seg]
  simp only [tmSt, State.mk.injEq]
  norm_num

/-- The second line: the hsync fall is recorded (`hsync_seen`) without
line validation; the rise then validates the nominal pulse width. -/
theorem run_line1 :
    runTM (tmSt 831 0 39 0 0 0 true false false false false false false false
        0 0 0 0 0 0 false)
      (lineList H_SYNC false false) =
    tmSt H_TOTAL 0 H_SYNC 0 0 0 true false false false true false false false
      0 0 0 0 0 0 false := by
  unfold lineList
  rw [show List.replicate H_SYNC (⟨false, false, false, 0⟩ : Sample) =
      ⟨false, false, false, 0⟩ :: List.replicate 39 ⟨false, false, false, 0⟩ from rfl]
  rw [show List.replicate (H_SYNC + H_BP - H_SYNC) (⟨true, false, false, 0⟩ : Sample) =
      ⟨true, false, false, 0⟩ :: List.replicate 127 ⟨true, false, false, 0⟩ from rfl]
  simp only [List.append_assoc, List.cons_append]
  rw [runTM_cons]
  dsimp only [tickS]
  rw [tick_hfall]
  rw [runTM_append, run_seg]
  rw [runTM_cons]
  dsimp only [tickS]
  rw [tick_hrise]
  rw [runTM_append, run_seg]
  rw [runTM_append, run_seg]
  rw [run_seg]
  simp only [tmSt, State.mk.injEq]
  norm_num
  decide

/-- The first full frame measured from reset: both syncs and all line
counters lock on, no validation fires an error, and only 518 of the 520
lines are counted (the first two falls merely arm the edge trackers). -/
theorem run_frame0 :
    runTM init cleanFrame =
    tmSt H_TOTAL 518 H_SYNC 1 0 480 true true false false true false false false
      0 0 0 0 0 0 false := by
  unfold cleanFrame frameList frameTail
  rw [show (V_SYNC - 1 : Nat) = 2 from rfl, show (19 - V_SYNC : Nat) = 16 from rfl]
  rw [show (List.replicate 2 (lineList H_SYNC false false)).flatten =
      lineList H_SYNC false false ++ (List.replicate 1 (lineList H_SYNC false false)).flatten
      from rfl]
  simp only [List.append_assoc]
  rw [runTM_append, run_line0]
  rw [runTM_append, run_line1]
  rw [runTM_append, run_block]
  rw [runTM_append, run_line_vrise]
  rw [runTM_append, run_block]
  rw [runTM_append, run_line H_SYNC (by decide) (by decide)]
  rw [runTM_append, run_block]
  rw [runTM_append, run_line H_SYNC (by decide) (by decide)]
  rw [runTM_append, run_block]
  rw [runTM_append, run_line H_SYNC (by decide) (by decide)]
  rw [run_block]
  simp only [tmSt, State.mk.injEq]
  norm_num
  repeat' apply And.intro
  all_goals first | rfl | decide | omega

/-- A full frame from a frame-boundary state once both syncs are
locked: the previous frame's totals validate cleanly, `frame_complete`
and silent mode are set, and only the `W` and `P` width checks can
record errors. -/
theorem run_frame_steady (W P : Nat) (hW1 : 1 ≤ W) (hW2 : W ≤ H_SYNC + H_BP - 1)
    (hP1 : 1 ≤ P) (hP2 : P ≤ 19) (vpl0 : Nat) (fcp silp : Bool)
    (eh ev eht evt eha eva : Nat) :
    runTM (tmSt H_TOTAL 520 H_SYNC vpl0 0 480 true true false false true true fcp false
        eh ev eht evt eha eva silp)
      (frameList W P) =
    tmSt H_TOTAL 520 H_SYNC P 0 480 true true false false true true true false
      (eh + if within_tolerance W H_SYNC = false then 1 else 0)
      (ev + if within_tolerance P V_SYNC = false then 1 else 0)
      eht evt eha eva true := by
  unfold frameList
  rw [runTM_append, run_line_vfall, run_frameTail W P hW1 hW2 hP1 hP2]
  simp only [tmSt, State.mk.injEq]
  norm_num
  decide

/-- The second frame from reset: the first vsync fall was seen one
frame earlier, so this frame's totals are validated (cleanly), but
`frame_complete` is only set at the start of the third frame. -/
theorem run_frame1 :
    runTM (tmSt H_TOTAL 518 H_SYNC 1 0 480 true true false false true false false false
        0 0 0 0 0 0 false)
      cleanFrame =
    tmSt H_TOTAL 520 H_SYNC 3 0 480 true true false false true true false false
      0 0 0 0 0 0 false := by
  unfold cleanFrame frameList
  rw [runTM_append, run_line_vfall,
    run_frameTail H_SYNC V_SYNC (by decide) (by decide) (by decide) (by decide)]
  simp only [tmSt, State.mk.injEq]
  norm_num
  decide

/-- One clean frame from a locked frame-boundary state validates
cleanly and enters the complete/silent state. -/
theorem run_clean_frame_one (fcp silp : Bool) :
    runTM (tmSt H_TOTAL 520 H_SYNC 3 0 480 true true false false true true fcp false
        0 0 0 0 0 0 silp)
      cleanFrame =
    tmSt H_TOTAL 520 H_SYNC 3 0 480 true true false false true true true false
      0 0 0 0 0 0 true := by
  unfold cleanFrame
  rw [run_frame_steady H_SYNC V_SYNC (by decide) (by decide) (by decide) (by decide)]
  simp only [tmSt, State.mk.injEq]
  norm_num
  decide

/-- Clean frames keep a locked frame-boundary state at the frame
boundary with no errors; after at least one of them the monitor is in
the complete/silent state. -/
theorem run_clean_frames (j : Nat) (fcp silp : Bool) :
    runTM (tmSt H_TOTAL 520 H_SYNC 3 0 480 true true false false true true fcp false
        0 0 0 0 0 0 silp)
      ((List.replicate j cleanFrame).flatten) =
    tmSt H_TOTAL 520 H_SYNC 3 0 480 true true false false true true
      (if j = 0 then fcp else true) false
      0 0 0 0 0 0 (if j = 0 then silp else true) := by
  induction j generalizing fcp silp with
  | zero => simp [runTM]
  | succ j ih =>
    rw [List.replicate_succ, List.flatten_cons, runTM_append, run_clean_frame_one, ih]
    simp

/-- C6: TimingMonitor boundary behavior.  Feeding the monitor a
synthetic, drift-free periodic signal with the configured timing for at
least two full frames yields a PASS report with all six error counters
(hsync width, vsync width, horizontal total, vertical total, active
width, active lines) equal to zero.  On such a signal, perturbing one
hsync pulse to `W` clocks (respectively the vsync pulse to `P` lines)
increments exactly the corresponding width-error counter, and by
exactly one when the deviation exceeds the tolerance of 1, and not at
all when it is within tolerance — in particular a deviation of exactly
`TOLERANCE + 1 = 2` flags exactly one width error, while a deviation of
exactly `TOLERANCE = 1` flags none. -/
theorem timingMonitor_boundary_behavior :
    (∀ k : Nat, 2 ≤ k →
      (runTM init (signalClean k)).frame_complete = true ∧
      (runTM init (signalClean k)).hsync_errors = 0 ∧
      (runTM init (signalClean k)).vsync_errors = 0 ∧
      (runTM init (signalClean k)).h_total_errors = 0 ∧
      (runTM init (signalClean k)).v_total_errors = 0 ∧
      (runTM init (signalClean k)).h_active_errors = 0 ∧
      (runTM init (signalClean k)).v_active_errors = 0 ∧
      report (runTM init (signalClean k)) = some true) ∧
    (∀ W : Nat, 1 ≤ W → W ≤ H_SYNC + H_BP - 1 →
      (runTM init (signalPertH W)).hsync_errors
          = (if within_tolerance W H_SYNC = true then 0 else 1) ∧
      (runTM init (signalPertH W)).vsync_errors = 0 ∧
      (runTM init (signalPertH W)).h_total_errors = 0 ∧
      (runTM init (signalPertH W)).v_total_errors = 0 ∧
      (runTM init (signalPertH W)).h_active_errors = 0 ∧
      (runTM init (signalPertH W)).v_active_errors = 0 ∧
      (runTM init (signalPertH W)).frame_complete = true) ∧
    (∀ P : Nat, 1 ≤ P → P ≤ 19 →
      (runTM init (signalPertV P)).vsync_errors
          = (if within_tolerance P V_SYNC = true then 0 else 1) ∧
      (runTM init (signalPertV P)).hsync_errors = 0 ∧
      (runTM init (signalPertV P)).h_total_errors = 0 ∧
      (runTM init (signalPertV P)).v_total_errors = 0 ∧
      (runTM init (signalPertV P)).h_active_errors = 0 ∧
      (runTM init (signalPertV P)).v_active_errors = 0 ∧
      (runTM init (signalPertV P)).frame_complete = true) := by
  refine ⟨?_, ?_, ?_⟩
  · intro k hk
    obtain ⟨m, rfl⟩ : ∃ m, k = m + 2 := ⟨k - 2, by omega⟩
    unfold signalClean
    rw [List.replicate_succ, List.replicate_succ, List.flatten_cons, List.flatten_cons]
    simp only [List.append_assoc]
    rw [runTM_append, run_frame0]
    rw [runTM_append, run_frame1]
    rw [runTM_append, run_clean_frames m false false]
    rw [runTM_cons, runTM_nil]
    dsimp only [frameStartSample, tickS]
    rw [tick_vfall]
    repeat' apply And.intro
    all_goals rfl
  · intro W hW1 hW2
    unfold signalPertH
    simp only [List.append_assoc]
    rw [runTM_append, run_frame0]
    rw [runTM_append, run_frame1]
    rw [runTM_append, run_frame_steady W V_SYNC hW1 hW2 (by decide) (by decide)]
    rw [runTM_cons, runTM_nil]
    dsimp only [frameStartSample, tickS]
    rw [tick_vfall]
    by_cases hw : within_tolerance W H_SYNC = true
    · simp only [hw, tmSt]
      norm_num
      repeat' apply And.intro
      all_goals first | rfl | decide
    · rw [Bool.not_eq_true] at hw
      simp only [hw, tmSt]
      norm_num
      repeat' apply And.intro
      all_goals first | rfl | decide
  · intro P hP1 hP2
    unfold signalPertV
    simp only [List.append_assoc]
    rw [runTM_append, run_frame0]
    rw [runTM_append, run_frame1]
    rw [runTM_append, run_frame_steady H_SYNC P (by decide) (by decide) hP1 hP2]
    rw [runTM_cons, runTM_nil]
    dsimp only [frameStartSample, tickS]
    rw [tick_vfall]
    by_cases hp : within_tolerance P V_SYNC = true
    · simp only [hp, tmSt]
      norm_num
      repeat' apply And.intro
      all_goals first | rfl | decide
    · rw [Bool.not_eq_true] at hp
      simp only [hp, tmSt]
      norm_num
      repeat' apply And.intro
      all_goals first | rfl | decide

theorem timingMonitor_boundary_behavior_witness :
    ((runTM init (signalClean 2)).frame_complete = true ∧
      report (runTM init (signalClean 2)) = some true) ∧
    ((runTM init (signalPertH 42)).hsync_errors = 1 ∧
      (runTM init (signalPertH 42)).vsync_errors = 0) ∧
    (runTM init (signalPertH 41)).hsync_errors = 0 ∧
    ((runTM init (signalPertV 5)).vsync_errors = 1 ∧
      (runTM init (signalPertV 5)).hsync_errors = 0) ∧
    (runTM init (signalPertV 4)).vsync_errors = 0 := by
  have h := timingMonitor_boundary_behavior
  refine ⟨⟨(h.1 2 (by norm_num)).1, (h.1 2 (by norm_num)).2.2.2.2.2.2.2⟩,
    ⟨?_, (h.2.1 42 (by norm_num) (by decide)).2.1⟩, ?_,
    ⟨?_, (h.2.2 5 (by norm_num) (by norm_num)).2.1⟩, ?_⟩
  · rw [(h.2.1 42 (by norm_num) (by decide)).1]; decide
  · rw [(h.2.1 41 (by norm_num) (by decide)).1]; decide
  · rw [(h.2.2 5 (by norm_num) (by norm_num)).1]; decide
  · rw [(h.2.2 4 (by norm_num) (by norm_num)).1]; decide

end TimingMonitor

end VgaNyancat
